import Mathlib

/-!
# getaddr client: connection state machine, per-peer getaddr scheduler, registry and
message stream parser

A shallow embedding of `build/netmine/clients/getaddr.cpp`.

Conventions of the embedding

* `ev::tstamp` values (loop times, delays) are kept as `Int`, in whole seconds; the
  arithmetic the program does on them is addition, subtraction and comparison.
* An `ev::timer` is either inactive (`none`) or active with the absolute loop
  time at which it is due (`some d`).  `timer.set(x); timer.start()` on an
  inactive timer at loop time `now` gives `some (now + x)`.  Every place where
  the program sets a timer runs on an inactive one (inside the timer's own
  callback, after `timer.stop()`, or behind `!timer.is_active()`).
* The loop time `ev::now(ev_default_loop())` is an explicit argument `now`.
* `do_write(g_control, ...)` is modelled by returning the list of messages
  written by the call.
* The build is the default one: `DO_CRON` and `HARVEST_CXN` are not defined.
* A `std::map` is the function from a key to the value stored under it, if any.
* The descriptor of the log feed is the list of what the coming calls of `read` find;
  the class `read_buffer` and the layout of a log record come from headers that are not
  among the sources, and are marked as such where they are defined.
-/

namespace Getaddr

/-- An `ev::timer`: `none` when inactive, `some d` when active and due at loop time `d`. -/
abbrev ev_timer := Option Int

/-- A remote or local endpoint (`struct sockaddr_in`): address and port. -/
structure sockaddr_in where
  sin_addr : Nat
  sin_port : Nat
deriving DecidableEq

/-- Messages written to the control socket `g_control`. -/
inductive control_write where
  | connect_msg (remote : sockaddr_in)
  | command_send_msg (msg_id : Nat) (handle_ids : List Nat)
deriving DecidableEq

/-- The constant `GETADDR_LIMIT`. -/
def GETADDR_LIMIT : Nat := 24

/-! ## Machine integers -/

/-- A mathematical integer fits a 32-bit signed `int`. -/
def int_fits (x : Int) : Prop := -(2 : Int) ^ 31 ≤ x ∧ x < (2 : Int) ^ 31

instance (x : Int) : Decidable (int_fits x) := by
  unfold int_fits; infer_instance

/-- Reduction of a mathematical integer to the 32-bit signed `int` range. -/
def wrap_int (x : Int) : Int := (x + 2 ^ 31) % 2 ^ 32 - 2 ^ 31

/-- The expression `5 * ((1 << j) - 1)` of `set_reconnect_timer`, in `int` arithmetic. -/
def reconnect_delay (j : Nat) : Int :=
  wrap_int (5 * wrap_int (wrap_int ((2 : Int) ^ j) - 1))

/-- The draw `uid(twister)` of a `uniform_int_distribution<uint32_t>(0, b)`: a value in
`[0, b]`.  `r` is the raw output of the generator; every value of the range is
reached (by `r` equal to it). -/
def uid (r : Nat) (b : Nat) : Nat := r % (b + 1)

/-! ## cxn_handler -/

/-- The enumeration `cxn_handler::State`. -/
inductive State where
  | DISCONNECTED
  | CONNECTING
  | CONNECTED
deriving DecidableEq

/-- Fields of `cxn_handler`.  `sers` is the serialized `connect_msg` for the remote
endpoint, kept as that endpoint. -/
structure cxn_handler where
  state_ : State
  pending_time : Int
  consecutive_fails : Nat
  sers : sockaddr_in
  timer : ev_timer
deriving DecidableEq

/-- Member `cxn_handler::set_reconnect_timer`, at loop time `now` with generator output `r`. -/
def cxn_handler.set_reconnect_timer (h : cxn_handler) (now : Int) (r : Nat) : cxn_handler :=
  let j := uid r (h.consecutive_fails % 2 ^ 32)
  let when := reconnect_delay j
  { h with timer := some (now + when) }

/-- First block of `cxn_handler::timer_cb` (the `if (pending_time > 0)` statement). -/
def cxn_handler.timer_cb_pending (h : cxn_handler) (now : Int) : cxn_handler :=
  if h.pending_time > 0 then
    let after := now - (h.pending_time + 60 * 15)
    if after < 0 then
      { h with
        pending_time := 0
        state_ := if h.state_ = State.CONNECTING then State.DISCONNECTED else h.state_ }
    else
      { h with timer := some (now + after) }
  else h

/-- Second block of `cxn_handler::timer_cb` (the `if (pending_time == 0)` statement).
The result is `none` when `assert(timer.is_active())` fails. -/
def cxn_handler.timer_cb_evaluate (h : cxn_handler) (now : Int) (r : Nat) :
    Option (cxn_handler × List control_write) :=
  if h.pending_time = 0 then
    match h.state_ with
    | State.CONNECTING =>
      if h.timer.isSome then some (h, []) else none
    | State.CONNECTED =>
      if h.consecutive_fails ≠ 0 then
        some ({ h with
                consecutive_fails := h.consecutive_fails - 1
                timer := some (now + 10) }, [])
      else some (h, [])
    | State.DISCONNECTED =>
      let h1 := { h with
                  pending_time := now
                  consecutive_fails := min 14 ((h.consecutive_fails + 1) % 2 ^ 64) }
      some (h1.set_reconnect_timer now r, [control_write.connect_msg h.sers])
  else some (h, [])

/-- Member `cxn_handler::timer_cb`: both blocks in sequence. -/
def cxn_handler.timer_cb (h : cxn_handler) (now : Int) (r : Nat) :
    Option (cxn_handler × List control_write) :=
  (h.timer_cb_pending now).timer_cb_evaluate now r

/-- The event loop running the timer of a `cxn_handler` at loop time `now`: the
(one-shot) timer is inactive when its callback runs. -/
def cxn_handler.on_timer (h : cxn_handler) (now : Int) (r : Nat) :
    Option (cxn_handler × List control_write) :=
  cxn_handler.timer_cb { h with timer := none } now r

/-- Constructor `cxn_handler::cxn_handler(remote_, s)` at loop time `now`. -/
def cxn_handler.ctor (remote_ : sockaddr_in) (s : State) (now : Int) (r : Nat) :
    Option (cxn_handler × List control_write) :=
  cxn_handler.timer_cb
    { state_ := s, pending_time := 0, consecutive_fails := 0, sers := remote_, timer := none }
    now r

/-- Member `cxn_handler::state(State s)`; the first component is the returned old state,
the last one the messages written to the control socket (the member writes none). -/
def cxn_handler.state (h : cxn_handler) (s : State) (now : Int) (r : Nat) :
    State × cxn_handler × List control_write :=
  let old := h.state_
  let h1 := { h with state_ := s }
  let h2 :=
    if h1.state_ = State.DISCONNECTED ∧ ¬ h1.timer.isSome then h1.set_reconnect_timer now r
    else h1
  (old, { h2 with pending_time := 0 }, [])

/-- Operations on one `cxn_handler` after its construction: its timer running at a
loop time, and a call of `state(s)`.  `r` is the generator output used when the
operation draws a reconnect delay. -/
inductive cxn_op where
  | timer (now : Int) (r : Nat)
  | set_state (s : State) (now : Int) (r : Nat)
deriving DecidableEq

/-- One operation on a `cxn_handler`; `none` when the assertion of `timer_cb` fails. -/
def cxn_handler.apply (h : cxn_handler) : cxn_op → Option cxn_handler
  | cxn_op.timer now r => (h.on_timer now r).map Prod.fst
  | cxn_op.set_state s now r => some (h.state s now r).2.1

/-- A sequence of operations on a `cxn_handler`, left to right. -/
def cxn_handler.run (h : cxn_handler) : List cxn_op → Option cxn_handler
  | [] => some h
  | op :: ops => (h.apply op).bind (fun h1 => h1.run ops)

/-! ## hid_handler -/

/-- Fields of `hid_handler`; `hid`, `getaddr_seq` and `getaddr_cnt` are `uint32_t`. -/
structure hid_handler where
  hid : Nat
  remote : sockaddr_in
  local_ : sockaddr_in
  timer : ev_timer
  last_enqueue : Int
  getaddr_seq : Nat
  getaddr_cnt : Nat
deriving DecidableEq

/-- Constructor `hid_handler::hid_handler(hid_, remote_, local_)`. -/
def hid_handler.ctor (hid_ : Nat) (remote_ local_ : sockaddr_in) : hid_handler :=
  { hid := hid_, remote := remote_, local_ := local_, timer := none, last_enqueue := 0,
    getaddr_seq := 0, getaddr_cnt := 0 }

/-- Member `hid_handler::timer_cb` at loop time `now`; the second argument and the second
component of the result are the global `g_pending_getaddrs`. -/
def hid_handler.timer_cb (h : hid_handler) (now : Int) (g_pending_getaddrs : List Nat) :
    hid_handler × List Nat :=
  let after := 10 + h.last_enqueue - now
  if after ≤ 0 then
    if h.getaddr_cnt < GETADDR_LIMIT then
      ({ h with getaddr_cnt := (h.getaddr_cnt + 1) % 2 ^ 32 }, g_pending_getaddrs ++ [h.hid])
    else (h, g_pending_getaddrs)
  else
    ({ h with timer := some (now + after) }, g_pending_getaddrs)

/-- Member `hid_handler::set_sequence`. -/
def hid_handler.set_sequence (h : hid_handler) (s : Nat) : hid_handler :=
  if s ≠ h.getaddr_seq then { h with getaddr_seq := s, getaddr_cnt := 0 } else h

/-- Member `hid_handler::enqueue` at loop time `now`. -/
def hid_handler.enqueue (h : hid_handler) (now : Int) : hid_handler :=
  let h1 := { h with last_enqueue := now }
  if ¬ h1.timer.isSome then { h1 with timer := some (now + 10) } else h1

/-- The event loop running the timer of a `hid_handler` at loop time `now`: the
(one-shot) timer is inactive when its callback runs. -/
def hid_handler.on_timer (h : hid_handler) (now : Int) (g_pending_getaddrs : List Nat) :
    hid_handler × List Nat :=
  hid_handler.timer_cb { h with timer := none } now g_pending_getaddrs

/-- What one run of the timer callback of a `hid_handler` did: the loop time, whether the
waiting period had expired (the timer was not set again) and whether the queue grew. -/
structure timer_event where
  time : Int
  expired : Bool
  pushed : Bool
deriving DecidableEq

/-- The event loop with no further input: as long as the timer of the `hid_handler` is
active, its callback runs at the time the timer is due.  At most `fuel` callbacks are
run; the events are appended to the log in the order they happen. -/
def hid_handler.run_loop : Nat → hid_handler → List Nat → List timer_event →
    hid_handler × List Nat × List timer_event
  | 0, h, g, log => (h, g, log)
  | fuel + 1, h, g, log =>
    match h.timer with
    | none => (h, g, log)
    | some due =>
      let res := h.on_timer due g
      hid_handler.run_loop fuel res.1 res.2
        (log ++ [{ time := due, expired := !res.1.timer.isSome,
                   pushed := decide (res.2.length ≠ g.length) }])

/-- Operations on one `hid_handler` within a round: a call of `enqueue` and the timer
callback running, each at a loop time. -/
inductive hid_op where
  | enqueue (now : Int)
  | timer (now : Int)
deriving DecidableEq

/-- One operation on a `hid_handler` and the global pending queue. -/
def hid_handler.apply (hg : hid_handler × List Nat) : hid_op → hid_handler × List Nat
  | hid_op.enqueue now => (hg.1.enqueue now, hg.2)
  | hid_op.timer now => hg.1.on_timer now hg.2

/-- A sequence of operations on a `hid_handler` and the pending queue, left to right. -/
def hid_handler.run (hg : hid_handler × List Nat) (ops : List hid_op) :
    hid_handler × List Nat :=
  ops.foldl hid_handler.apply hg

/-! ## getaddr_pusher -/

/-- Function `send_getaddrs`; `g_msg_id` is the global of that name and the result is what
the call writes to the control socket. -/
def send_getaddrs (g_msg_id : Nat) (handle_ids : List Nat) : List control_write :=
  if handle_ids.length = 0 then []
  else [control_write.command_send_msg g_msg_id handle_ids]

/-- Member `getaddr_pusher::timer_cb`: the messages written and the new value of the global
`g_pending_getaddrs`. -/
def getaddr_pusher.timer_cb (g_msg_id : Nat) (g_pending_getaddrs : List Nat) :
    List control_write × List Nat :=
  (send_getaddrs g_msg_id g_pending_getaddrs, [])

/-! ## The global maps and the callbacks of plugin_main -/

/-- The operation `std::map::insert`: the key is added only if it is not yet there. -/
def map_insert {K V : Type} [DecidableEq K] (m : K → Option V) (k : K) (v : V) :
    K → Option V :=
  fun x => if x = k then (match m k with | some old => some old | none => some v) else m x

/-- The assignment `m[k] = v` of a `std::map`, also used for a change made through the
pointer stored under `k`. -/
def map_assign {K V : Type} [DecidableEq K] (m : K → Option V) (k : K) (v : V) :
    K → Option V :=
  fun x => if x = k then some v else m x

/-- The operation `std::map::erase` by key. -/
def map_erase {K V : Type} [DecidableEq K] (m : K → Option V) (k : K) : K → Option V :=
  fun x => if x = k then none else m x

/-- The value of `~0` stored in a `uint32_t`. -/
def NO_HANDLE : Nat := 4294967295

/-- The globals `g_known_addrs`, `g_known_hids`, `g_cxns` and `g_pending_getaddrs`; a map
is the function from a key to the value stored under it, if any. -/
structure globals where
  g_known_addrs : sockaddr_in → Option Nat
  g_known_hids : Nat → Option hid_handler
  g_cxns : sockaddr_in → Option cxn_handler
  g_pending_getaddrs : List Nat

/-- The globals before `plugin_main` has filled them. -/
def globals.empty : globals :=
  { g_known_addrs := fun _ => none, g_known_hids := fun _ => none, g_cxns := fun _ => none,
    g_pending_getaddrs := [] }

/-- The callback given to `get_all_cxn` (lines 480-489) for one inventory entry; `hid` is
`ntoh(info->handle_id)`.  The result is `none` when the assertion in the constructor of
`cxn_handler` fails. -/
def inventory_cb (G : globals) (hid : Nat) (remote local_ : sockaddr_in) (now : Int) (r : Nat) :
    Option (globals × List control_write) :=
  let addrs := map_insert G.g_known_addrs remote hid
  match cxn_handler.ctor remote State.CONNECTED now r with
  | none => none
  | some (handler, w) =>
    some ({ G with
            g_known_addrs := addrs
            g_cxns := map_insert G.g_cxns remote handler
            g_known_hids := map_insert G.g_known_hids hid (hid_handler.ctor hid remote local_) },
          w)

/-- The connect callback of the watcher (lines 493-513). -/
def connect_cb (G : globals) (hid : Nat) (remote local_ : sockaddr_in) (now : Int) (r : Nat) :
    Option (globals × List control_write) :=
  let addrs := map_assign G.g_known_addrs remote hid
  let hids := map_insert (map_erase G.g_known_hids hid) hid (hid_handler.ctor hid remote local_)
  match G.g_cxns remote with
  | none =>
    match cxn_handler.ctor remote State.CONNECTED now r with
    | none => none
    | some (handler, w) =>
      some ({ G with
              g_known_addrs := addrs
              g_cxns := map_insert G.g_cxns remote handler
              g_known_hids := hids }, w)
  | some c =>
    let res := c.state State.CONNECTED now r
    some ({ G with
            g_known_addrs := addrs
            g_cxns := map_assign G.g_cxns remote res.2.1
            g_known_hids := hids }, res.2.2)

/-- The disconnect callback of the watcher (lines 514-528). -/
def disconnect_cb (G : globals) (handle_id : Nat) (remote : sockaddr_in) (now : Int) (r : Nat) :
    Option (globals × List control_write) :=
  let addrs := map_assign G.g_known_addrs remote NO_HANDLE
  let hids := map_erase G.g_known_hids handle_id
  match G.g_cxns remote with
  | none =>
    match cxn_handler.ctor remote State.DISCONNECTED now r with
    | none => none
    | some (handler, w) =>
      some ({ G with
              g_known_addrs := addrs
              g_cxns := map_insert G.g_cxns remote handler
              g_known_hids := hids }, w)
  | some c =>
    let res := c.state State.DISCONNECTED now r
    some ({ G with
            g_known_addrs := addrs
            g_cxns := map_assign G.g_cxns remote res.2.1
            g_known_hids := hids }, res.2.2)

/-- What the event loop delivers to the registry: an entry of the startup inventory, a
connect or a disconnect notification, or the timer of the `cxn_handler` of an endpoint
running.  Each comes with the loop time and the generator output it may use. -/
inductive registry_event where
  | inventory (hid : Nat) (remote local_ : sockaddr_in) (now : Int) (r : Nat)
  | connect (hid : Nat) (remote local_ : sockaddr_in) (now : Int) (r : Nat)
  | disconnect (hid : Nat) (remote : sockaddr_in) (now : Int) (r : Nat)
  | cxn_timer (remote : sockaddr_in) (now : Int) (r : Nat)

/-- One event on the globals; the messages written are dropped.  The result is `none`
when an assertion fails. -/
def globals.step (G : globals) : registry_event → Option globals
  | registry_event.inventory hid remote local_ now r =>
    (inventory_cb G hid remote local_ now r).map Prod.fst
  | registry_event.connect hid remote local_ now r =>
    (connect_cb G hid remote local_ now r).map Prod.fst
  | registry_event.disconnect hid remote now r =>
    (disconnect_cb G hid remote now r).map Prod.fst
  | registry_event.cxn_timer remote now r =>
    match G.g_cxns remote with
    | none => some G
    | some c => (c.on_timer now r).map
        (fun res => { G with g_cxns := map_assign G.g_cxns remote res.1 })

/-- A sequence of events on the globals, left to right. -/
def globals.run (G : globals) : List registry_event → Option globals
  | [] => some G
  | ev :: evs => (G.step ev).bind (fun G1 => G1.run evs)

/-- The connection state machine of endpoint `E` exists and is in state CONNECTED. -/
def endpoint_connected (G : globals) (E : sockaddr_in) : Prop :=
  ∃ c, G.g_cxns E = some c ∧ c.state_ = State.CONNECTED

/-- Some HandleId of the map of schedules has `E` as its remote endpoint. -/
def endpoint_referenced (G : globals) (E : sockaddr_in) : Prop :=
  ∃ hid h, G.g_known_hids hid = some h ∧ h.remote = E

/-- The consistency of the two maps: an endpoint is connected exactly when a schedule
refers to it. -/
def registry_consistent (G : globals) : Prop :=
  ∀ E, endpoint_connected G E ↔ endpoint_referenced G E

/-- A notification about HandleId `hid` and endpoint `remote` agrees with the map of
schedules: if `hid` has a schedule, its remote endpoint is `remote`, and no other
HandleId has a schedule with that remote endpoint. -/
def handle_owns (G : globals) (hid : Nat) (remote : sockaddr_in) : Prop :=
  (∀ h, G.g_known_hids hid = some h → h.remote = remote)
  ∧ (∀ hid2 h2, G.g_known_hids hid2 = some h2 → h2.remote = remote → hid2 = hid)

/-- An event agrees with the registry it arrives at: an inventory entry names a HandleId
and an endpoint not seen before; a connect or disconnect notification agrees with the
map of schedules; a timer may run at any time. -/
def event_agrees (G : globals) : registry_event → Prop
  | registry_event.inventory hid remote _ _ _ =>
    G.g_known_hids hid = none ∧ G.g_cxns remote = none
  | registry_event.connect hid remote _ _ _ => handle_owns G hid remote
  | registry_event.disconnect hid remote _ _ => handle_owns G hid remote
  | registry_event.cxn_timer _ _ _ => True

/-- Every event of a sequence agrees with the registry it arrives at. -/
def events_agree : globals → List registry_event → Prop
  | _, [] => True
  | G, ev :: evs => event_agrees G ev ∧ ∀ G1, G.step ev = some G1 → events_agree G1 evs

/-! ## bc_msg_handler -/

/-- The value of a byte sequence read as a big-endian unsigned integer; on four bytes it
is `ntoh` of the `uint32_t` stored in them. -/
def be_decode (bs : List Nat) : Nat :=
  bs.foldl (fun acc b => acc * 256 + b % 256) 0

/-- The four bytes of the big-endian form of a length: the prefix of a frame on the log
feed. -/
def be32_encode (n : Nat) : List Nat :=
  [n / 16777216 % 256, n / 65536 % 256, n / 256 % 256, n % 256]

/-- A frame of the log feed: the length of the payload in four bytes, then the payload. -/
def frame (p : List Nat) : List Nat := be32_encode p.length ++ p

/-- The values of `errno` that `io_cb` lets pass (from the system headers). -/
def EAGAIN : Nat := 11

/-- See `EAGAIN`. -/
def EWOULDBLOCK : Nat := 11

/-- What the descriptor of the log feed holds for the coming calls of `read`: bytes that
have arrived together, the end of the stream, or an error with its `errno`. -/
inductive fd_item where
  | chunk (bytes : List Nat)
  | closed
  | error (errno : Nat)
deriving DecidableEq

/-- The result of one call of `read`: the return value `r`, `errno`, and the bytes put
into the buffer. -/
structure read_result where
  r : Int
  errno : Nat
  bytes : List Nat
deriving DecidableEq

/-- The system call `read(fd, buf, size)` on a non-blocking descriptor.  It returns at
most `size` bytes of the first chunk and leaves the others in the descriptor; with
nothing to read it fails with `EAGAIN`; at the end of the stream it returns 0. -/
def sys_read (fd : List fd_item) (size : Nat) : read_result × List fd_item :=
  match fd with
  | [] => ({ r := -1, errno := EAGAIN, bytes := [] }, [])
  | fd_item.closed :: rest => ({ r := 0, errno := 0, bytes := [] }, rest)
  | fd_item.error e :: rest => ({ r := -1, errno := e, bytes := [] }, rest)
  | fd_item.chunk bs :: rest =>
    ({ r := (bs.take size).length, errno := 0, bytes := bs.take size },
     if bs.drop size = [] then rest else fd_item.chunk (bs.drop size) :: rest)

/-- Modelled from the spec: the class `read_buffer` of `read_buffer.hpp`, which is not
part of the sources at hand.  It holds the bytes read since the cursor was last set to 0
and the number of bytes still expected; the parser reads only while the buffer is
"hungry", that is, while bytes are still expected. -/
structure read_buffer where
  buffer_ : List Nat
  to_read_ : Nat
deriving DecidableEq

/-- Modelled from the spec: `read_buffer::hungry()`. -/
def read_buffer.hungry (q : read_buffer) : Bool := decide (q.to_read_ > 0)

/-- Modelled from the spec: `read_buffer::do_read(fd)`: one `read` of at most the
expected number of bytes; the bytes received are appended and no longer expected. -/
def read_buffer.do_read (q : read_buffer) (fd : List fd_item) :
    read_result × read_buffer × List fd_item :=
  let res := sys_read fd q.to_read_
  if res.1.r > 0 then
    (res.1, { buffer_ := q.buffer_ ++ res.1.bytes,
              to_read_ := q.to_read_ - res.1.bytes.length }, res.2)
  else (res.1, q, res.2)

/-- Modelled from the spec: `read_buffer::cursor(0)`. -/
def read_buffer.cursor0 (q : read_buffer) : read_buffer := { q with buffer_ := [] }

/-- Modelled from the spec: `read_buffer::to_read(n)`. -/
def read_buffer.set_to_read (q : read_buffer) (n : Nat) : read_buffer :=
  { q with to_read_ := n }

/-- The fields of `struct bitcoin_msg_log_format` that `io_cb` looks at: the flag
`is_sender`, the characters of `msg.command`, and the four bytes of `id` as they lie in
memory (network byte order). -/
structure bitcoin_msg_log_format where
  is_sender : Nat
  command : List Nat
  id : List Nat
deriving DecidableEq

/-- Modelled from the spec: a layout of `struct bitcoin_msg_log_format` (declared in a
header that is not at hand), in the order of the description of the log feed: one byte
for the flag, twelve for the command name, four for the HandleId, then the payload. -/
def spec_layout (body : List Nat) : bitcoin_msg_log_format :=
  { is_sender := body.headD 0, command := (body.drop 1).take 12, id := (body.drop 13).take 4 }

/-- The test `strcmp(blog->msg.command, "addr") == 0` on the characters of the command. -/
def is_addr_command (command : List Nat) : Bool :=
  decide (command.takeWhile (fun c => decide (c ≠ 0)) = [97, 100, 100, 114])

/-- Fields of `bc_msg_handler` (the watcher `io` apart). -/
structure bc_msg_handler where
  read_queue : read_buffer
  reading_len : Bool
deriving DecidableEq

/-- Constructor `bc_msg_handler::bc_msg_handler`. -/
def bc_msg_handler.ctor : bc_msg_handler :=
  { read_queue := { buffer_ := [], to_read_ := 4 }, reading_len := true }

/-- Lines 340-383 of `io_cb`: what is done with a complete record.  `layout` gives the
fields of the record lying in the buffer. -/
def handle_record (layout : List Nat → bitcoin_msg_log_format) (now : Int)
    (buffer : List Nat) (G : globals) : globals :=
  let blog := layout buffer
  if blog.is_sender = 0 ∧ is_addr_command blog.command = true then
    let handle_id := be_decode blog.id
    match G.g_known_hids handle_id with
    | none => G
    | some it => { G with g_known_hids := map_assign G.g_known_hids handle_id (it.enqueue now) }
  else G

/-- The parser at work: the handler, the descriptor, the globals, and the record bodies
completed so far (a trace, oldest first). -/
structure io_state where
  handler : bc_msg_handler
  fd : List fd_item
  G : globals
  bodies : List (List Nat)

/-- Lines 332-390 of `io_cb`: the statement `if (read_queue.to_read() == 0)`. -/
def io_state.on_full (layout : List Nat → bitcoin_msg_log_format) (now : Int)
    (st : io_state) : io_state :=
  if st.handler.read_queue.to_read_ = 0 then
    if st.handler.reading_len = true then
      let netlen := st.handler.read_queue.buffer_.take 4
      { st with
        handler :=
          { read_queue := (st.handler.read_queue.cursor0).set_to_read (be_decode netlen)
            reading_len := false } }
    else
      { st with
        G := handle_record layout now st.handler.read_queue.buffer_ st.G
        bodies := st.bodies ++ [st.handler.read_queue.buffer_]
        handler :=
          { read_queue := (st.handler.read_queue.cursor0).set_to_read 4
            reading_len := true } }
  else st

/-- The result of `io_cb`: it returns, it throws `runtime_error`, or the bound on the
number of reads of the model was reached. -/
inductive io_result where
  | done (st : io_state)
  | fatal (st : io_state)
  | out_of_fuel

/-- One run of the body of the loop of `io_cb` (lines 318-390): the value of `r` and the
new state, or the state in which the exception is thrown. -/
def io_state.read_step (layout : List Nat → bitcoin_msg_log_format) (now : Int)
    (st : io_state) : Except io_state (Int × io_state) :=
  let res := st.handler.read_queue.do_read st.fd
  let st1 : io_state :=
    { st with handler := { st.handler with read_queue := res.2.1 }, fd := res.2.2 }
  if res.1.r < 0 ∧ res.1.errno ≠ EWOULDBLOCK ∧ res.1.errno ≠ EAGAIN then Except.error st1
  else if res.1.r = 0 then Except.error st1
  else Except.ok (res.1.r, st1.on_full layout now)

/-- The loop `while (r > 0 && read_queue.hungry())` of `io_cb`, with a bound on the number
of times the body runs. -/
def io_cb_loop (layout : List Nat → bitcoin_msg_log_format) (now : Int) :
    Nat → Int → io_state → io_result
  | 0, r, st =>
    if r > 0 ∧ st.handler.read_queue.hungry = true then io_result.out_of_fuel
    else io_result.done st
  | fuel + 1, r, st =>
    if r > 0 ∧ st.handler.read_queue.hungry = true then
      match st.read_step layout now with
      | Except.error st1 => io_result.fatal st1
      | Except.ok (r1, st1) => io_cb_loop layout now fuel r1 st1
    else io_result.done st

/-- Member `bc_msg_handler::io_cb` on a `READ` event, at loop time `now`, running the body
of its loop at most `fuel` times. -/
def io_cb (layout : List Nat → bitcoin_msg_log_format) (now : Int) (fuel : Nat)
    (st : io_state) : io_result :=
  io_cb_loop layout now fuel 1 st

/-! ## Helper lemmas -/

theorem wrap_int_of_fits (x : Int) (h : int_fits x) : wrap_int x = x := by
  unfold int_fits at h
  unfold wrap_int
  rw [Int.emod_eq_of_lt] <;> omega

theorem uid_le (r b : Nat) : uid r b ≤ b := by
  unfold uid
  exact Nat.lt_succ_iff.mp (Nat.mod_lt _ (Nat.succ_pos _))

/-! ## Connection state machine: pending attempts -/

/-- First block of `timer_cb` on a pending attempt: the pending marker is cleared exactly
when the attempt is younger than 900 seconds. -/
theorem timer_cb_pending_clears_iff (h : cxn_handler) (now : Int)
    (hp : h.pending_time > 0) :
    (h.timer_cb_pending now).pending_time = 0 ↔ now - h.pending_time < 900 := by
  unfold cxn_handler.timer_cb_pending
  by_cases hlt : now - (h.pending_time + 60 * 15) < 0
  · simp only [hp, hlt, if_true]
    constructor
    · intro _; omega
    · intro _; trivial
  · simp only [hp, hlt, if_true, if_false]
    constructor
    · intro h0; omega
    · intro h1; omega

/-- C1, evaluation of the code. A handler built at loop time 100 in state DISCONNECTED
(drawing a delay of 5 s) has a pending attempt since 100 and its timer due at 105. When
the timer runs at 105 the attempt is 5 s old, and the first block of the callback clears
the pending marker. A handler built at loop time 100 that retries seven times at once
(six draws of delay 0, then a draw of delay 1275 s) has a pending attempt since 100 and
its timer due at 1375. When the timer runs at 1375 the attempt is 1275 s old, staler than
15 minutes, and the callback leaves the marker and the state as they were and only sets
the timer 375 s ahead. The claim asks for the opposite in both cases. -/
theorem C1_stale_pending_code :
    (cxn_handler.ctor ⟨1, 8333⟩ State.DISCONNECTED 100 1
      = some ({ state_ := State.DISCONNECTED, pending_time := 100, consecutive_fails := 1,
                sers := ⟨1, 8333⟩, timer := some 105 },
              [control_write.connect_msg ⟨1, 8333⟩]))
    ∧ (cxn_handler.timer_cb_pending
        { state_ := State.DISCONNECTED, pending_time := 100, consecutive_fails := 1,
          sers := ⟨1, 8333⟩, timer := none } 105
      = { state_ := State.DISCONNECTED, pending_time := 0, consecutive_fails := 1,
          sers := ⟨1, 8333⟩, timer := none })
    ∧ ((cxn_handler.ctor ⟨1, 8333⟩ State.DISCONNECTED 100 0).bind
        (fun p => p.1.run (List.replicate 6 (cxn_op.timer 100 0) ++ [cxn_op.timer 100 8]))
      = some { state_ := State.DISCONNECTED, pending_time := 100, consecutive_fails := 8,
               sers := ⟨1, 8333⟩, timer := some 1375 })
    ∧ (cxn_handler.on_timer
        { state_ := State.DISCONNECTED, pending_time := 100, consecutive_fails := 8,
          sers := ⟨1, 8333⟩, timer := some 1375 } 1375 0
      = some ({ state_ := State.DISCONNECTED, pending_time := 100, consecutive_fails := 8,
                sers := ⟨1, 8333⟩, timer := some 1750 }, [])) := by
  refine ⟨?_, ?_, ?_, ?_⟩ <;> decide

/-! ## Connection state machine: reconnect delay -/

theorem reconnect_delay_eq (j : Nat) (hj : j ≤ 14) :
    int_fits ((2 : Int) ^ j) ∧ int_fits ((2 : Int) ^ j - 1) ∧ int_fits (5 * ((2 : Int) ^ j - 1))
      ∧ reconnect_delay j = 5 * ((2 : Int) ^ j - 1) := by
  interval_cases j <;> decide

theorem pow_two_le_of_le (j f : Nat) (hj : j ≤ f) : (2 : Int) ^ j ≤ (2 : Int) ^ f :=
  pow_le_pow_right₀ (by norm_num) hj

/-- C2. For a failure count `f ≤ 14` and a draw `j ≤ f`, the three `int` operations of
`5 * ((1 << j) - 1)` stay inside the 32-bit signed range, the computed delay is
`5 * (2 ^ j - 1)`, it lies between `0` and `5 * (2 ^ f - 1)`, which is at most 81915,
and `set_reconnect_timer` on a handler with that count and that draw sets the timer
that many seconds after the loop time. -/
theorem C2_backoff_bound (f j : Nat) (hf : f ≤ 14) (hj : j ≤ f) :
    int_fits ((2 : Int) ^ j) ∧ int_fits ((2 : Int) ^ j - 1) ∧ int_fits (5 * ((2 : Int) ^ j - 1))
      ∧ reconnect_delay j = 5 * ((2 : Int) ^ j - 1)
      ∧ 0 ≤ reconnect_delay j
      ∧ reconnect_delay j ≤ 5 * ((2 : Int) ^ f - 1)
      ∧ 5 * ((2 : Int) ^ f - 1) ≤ 81915
      ∧ ∀ (h : cxn_handler) (now : Int) (r : Nat),
          h.consecutive_fails = f → uid r (f % 2 ^ 32) = j →
          (h.set_reconnect_timer now r).timer = some (now + 5 * ((2 : Int) ^ j - 1)) := by
  have hj14 : j ≤ 14 := le_trans hj hf
  obtain ⟨h1, h2, h3, h4⟩ := reconnect_delay_eq j hj14
  have hpos : (1 : Int) ≤ (2 : Int) ^ j := one_le_pow₀ (by norm_num)
  have hmono : (2 : Int) ^ j ≤ (2 : Int) ^ f := pow_two_le_of_le j f hj
  have htop : (2 : Int) ^ f ≤ (2 : Int) ^ 14 := pow_two_le_of_le f 14 hf
  have h14 : (2 : Int) ^ 14 = 16384 := by norm_num
  refine ⟨h1, h2, h3, h4, ?_, ?_, ?_, ?_⟩
  · rw [h4]; omega
  · rw [h4]; omega
  · omega
  · intro h now r hfe hje
    simp only [cxn_handler.set_reconnect_timer, hfe, hje, h4]

/-- C2 at failure count 14 and draw 14: the largest delay, 81915 seconds. -/
theorem C2_backoff_bound_witness :
    (14 : Nat) ≤ 14 ∧ reconnect_delay 14 = 5 * ((2 : Int) ^ 14 - 1)
      ∧ reconnect_delay 14 ≤ 5 * ((2 : Int) ^ 14 - 1) :=
  ⟨le_refl 14, (C2_backoff_bound 14 14 (le_refl 14) (le_refl 14)).2.2.2.1,
    (C2_backoff_bound 14 14 (le_refl 14) (le_refl 14)).2.2.2.2.2.1⟩

/-! ## Connection state machine: failure count -/

theorem timer_cb_pending_fails (h : cxn_handler) (now : Int) :
    (h.timer_cb_pending now).consecutive_fails = h.consecutive_fails := by
  unfold cxn_handler.timer_cb_pending
  dsimp only
  split_ifs <;> rfl

theorem timer_cb_evaluate_fails_le (h h1 : cxn_handler) (now : Int) (r : Nat)
    (w : List control_write) (hle : h.consecutive_fails ≤ 14)
    (hev : h.timer_cb_evaluate now r = some (h1, w)) : h1.consecutive_fails ≤ 14 := by
  unfold cxn_handler.timer_cb_evaluate at hev
  by_cases hp : h.pending_time = 0
  · rw [if_pos hp] at hev
    cases hs : h.state_ with
    | CONNECTING =>
      rw [hs] at hev
      dsimp only at hev
      by_cases ht : h.timer.isSome = true
      · rw [if_pos ht] at hev
        simp only [Option.some.injEq, Prod.mk.injEq] at hev
        rw [← hev.1]; exact hle
      · rw [if_neg ht] at hev
        exact absurd hev (by simp)
    | CONNECTED =>
      rw [hs] at hev
      dsimp only at hev
      by_cases hf : h.consecutive_fails ≠ 0
      · rw [if_pos hf] at hev
        simp only [Option.some.injEq, Prod.mk.injEq] at hev
        rw [← hev.1]
        show h.consecutive_fails - 1 ≤ 14
        omega
      · rw [if_neg hf] at hev
        simp only [Option.some.injEq, Prod.mk.injEq] at hev
        rw [← hev.1]; exact hle
    | DISCONNECTED =>
      rw [hs] at hev
      dsimp only at hev
      simp only [Option.some.injEq, Prod.mk.injEq] at hev
      rw [← hev.1]
      show min 14 ((h.consecutive_fails + 1) % 2 ^ 64) ≤ 14
      exact Nat.min_le_left _ _
  · rw [if_neg hp] at hev
    simp only [Option.some.injEq, Prod.mk.injEq] at hev
    rw [← hev.1]; exact hle

theorem timer_cb_fails_le (h h1 : cxn_handler) (now : Int) (r : Nat)
    (w : List control_write) (hle : h.consecutive_fails ≤ 14)
    (hev : h.timer_cb now r = some (h1, w)) : h1.consecutive_fails ≤ 14 := by
  unfold cxn_handler.timer_cb at hev
  refine timer_cb_evaluate_fails_le _ h1 now r w ?_ hev
  rw [timer_cb_pending_fails]; exact hle

theorem state_fails (h : cxn_handler) (s : State) (now : Int) (r : Nat) :
    (h.state s now r).2.1.consecutive_fails = h.consecutive_fails := by
  unfold cxn_handler.state
  simp only
  split_ifs <;> rfl

theorem apply_fails_le (h h1 : cxn_handler) (op : cxn_op) (hle : h.consecutive_fails ≤ 14)
    (hap : h.apply op = some h1) : h1.consecutive_fails ≤ 14 := by
  cases op with
  | timer now r =>
    simp only [cxn_handler.apply, cxn_handler.on_timer] at hap
    cases hcb : cxn_handler.timer_cb { h with timer := none } now r with
    | none => rw [hcb] at hap; exact absurd hap (by simp)
    | some res =>
      rw [hcb] at hap
      simp only [Option.map_some', Option.some.injEq] at hap
      rw [← hap]
      exact timer_cb_fails_le { h with timer := none } res.1 now r res.2 hle hcb
  | set_state s now r =>
    simp only [cxn_handler.apply, Option.some.injEq] at hap
    rw [← hap, state_fails]; exact hle

theorem run_fails_le (ops : List cxn_op) (h h1 : cxn_handler)
    (hle : h.consecutive_fails ≤ 14) (hrun : h.run ops = some h1) :
    h1.consecutive_fails ≤ 14 := by
  induction ops generalizing h with
  | nil =>
    simp only [cxn_handler.run, Option.some.injEq] at hrun
    rw [← hrun]; exact hle
  | cons op ops ih =>
    simp only [cxn_handler.run, Option.bind_eq_some] at hrun
    obtain ⟨h2, hap, hrest⟩ := hrun
    exact ih h2 (apply_fails_le h h2 op hle hap) hrest

/-- C3. Construct a handler for any endpoint in any initial state, then apply any finite
sequence of timer callbacks (at arbitrary loop times) and `state(s)` calls: in every
state so reached the consecutive-failure count is at most 14 (it is a natural number,
so at least 0). -/
theorem C3_fails_cap (remote_ : sockaddr_in) (s : State) (now : Int) (r : Nat)
    (ops : List cxn_op) (h0 h : cxn_handler) (w : List control_write)
    (hctor : cxn_handler.ctor remote_ s now r = some (h0, w))
    (hrun : h0.run ops = some h) :
    0 ≤ h.consecutive_fails ∧ h.consecutive_fails ≤ 14 := by
  refine ⟨Nat.zero_le _, run_fails_le ops h0 h ?_ hrun⟩
  unfold cxn_handler.ctor at hctor
  exact timer_cb_fails_le _ h0 now r w (Nat.zero_le 14) hctor

/-- C3 on a streak: a handler built in state DISCONNECTED whose timer then runs twenty
times, each run sending a new request; the count ends at 14. -/
theorem C3_fails_cap_witness :
    cxn_handler.run
        { state_ := State.DISCONNECTED, pending_time := 100, consecutive_fails := 1,
          sers := ⟨1, 8333⟩, timer := some 100 }
        (List.replicate 20 (cxn_op.timer 100 0))
      = some { state_ := State.DISCONNECTED, pending_time := 100, consecutive_fails := 14,
               sers := ⟨1, 8333⟩, timer := some 100 }
    ∧ (14 : Nat) ≤ 14 :=
  ⟨by decide,
   (C3_fails_cap ⟨1, 8333⟩ State.DISCONNECTED 100 0 (List.replicate 20 (cxn_op.timer 100 0))
      { state_ := State.DISCONNECTED, pending_time := 100, consecutive_fails := 1,
        sers := ⟨1, 8333⟩, timer := some 100 }
      { state_ := State.DISCONNECTED, pending_time := 100, consecutive_fails := 14,
        sers := ⟨1, 8333⟩, timer := some 100 }
      [control_write.connect_msg ⟨1, 8333⟩] (by decide) (by decide)).2⟩

/-! ## Connection state machine: the reconnect attempt -/

theorem timer_cb_of_idle (h : cxn_handler) (now : Int) (r : Nat) (hp : h.pending_time = 0) :
    h.timer_cb now r = h.timer_cb_evaluate now r := by
  unfold cxn_handler.timer_cb cxn_handler.timer_cb_pending
  rw [if_neg (by omega)]

/-- The callback in state DISCONNECTED with no pending attempt, as the code computes it. -/
theorem timer_cb_disconnected_step (h : cxn_handler) (now : Int) (r : Nat)
    (hs : h.state_ = State.DISCONNECTED) (hp : h.pending_time = 0) :
    h.timer_cb now r =
      some (cxn_handler.set_reconnect_timer
              { h with
                pending_time := now
                consecutive_fails := min 14 ((h.consecutive_fails + 1) % 2 ^ 64) } now r,
            [control_write.connect_msg h.sers]) := by
  rw [timer_cb_of_idle h now r hp]
  unfold cxn_handler.timer_cb_evaluate
  rw [if_pos hp, hs]

/-- The callback in state DISCONNECTED with no pending attempt: one connection request is
written, the pending time becomes the loop time, the failure count becomes
`min 14 (count + 1)` and the reconnect timer is set; the state is still DISCONNECTED. -/
theorem timer_cb_disconnected_idle (h : cxn_handler) (now : Int) (r : Nat)
    (hs : h.state_ = State.DISCONNECTED) (hp : h.pending_time = 0)
    (hf : h.consecutive_fails ≤ 14) :
    h.timer_cb now r =
      some ({ state_ := State.DISCONNECTED, pending_time := now,
              consecutive_fails := min 14 (h.consecutive_fails + 1), sers := h.sers,
              timer := some (now + reconnect_delay
                (uid r (min 14 (h.consecutive_fails + 1)))) },
            [control_write.connect_msg h.sers]) := by
  rw [timer_cb_disconnected_step h now r hs hp]
  have h64 : (h.consecutive_fails + 1) % 2 ^ 64 = h.consecutive_fails + 1 :=
    Nat.mod_eq_of_lt (by omega)
  have h32 : min 14 (h.consecutive_fails + 1) % 2 ^ 32 = min 14 (h.consecutive_fails + 1) :=
    Nat.mod_eq_of_lt (lt_of_le_of_lt (Nat.min_le_left _ _) (by norm_num))
  simp only [cxn_handler.set_reconnect_timer, h64, h32, hs]

/-- The callback in state CONNECTED writes nothing to the control socket. -/
theorem timer_cb_connected_no_write (h h1 : cxn_handler) (now : Int) (r : Nat)
    (w : List control_write) (hs : h.state_ = State.CONNECTED)
    (hcb : h.timer_cb now r = some (h1, w)) : w = [] := by
  have hs1 : (h.timer_cb_pending now).state_ = State.CONNECTED := by
    unfold cxn_handler.timer_cb_pending
    dsimp only
    split_ifs <;> simp_all
  unfold cxn_handler.timer_cb cxn_handler.timer_cb_evaluate at hcb
  rw [hs1] at hcb
  dsimp only at hcb
  split_ifs at hcb <;> simp_all

/-- C4, evaluation of the code. A handler is built at loop time 100 in state DISCONNECTED:
it writes one connection request, records the attempt as pending since 100, counts one
failure and sets its timer for time 105. When that timer runs at time 105 the attempt
is still pending (5 s old), yet the callback writes a second connection request. The
claim says that no request is written while an attempt is pending. -/
theorem C4_request_while_pending_code :
    (cxn_handler.ctor ⟨1, 8333⟩ State.DISCONNECTED 100 1
      = some ({ state_ := State.DISCONNECTED, pending_time := 100, consecutive_fails := 1,
                sers := ⟨1, 8333⟩, timer := some 105 },
              [control_write.connect_msg ⟨1, 8333⟩]))
    ∧ (cxn_handler.on_timer
        { state_ := State.DISCONNECTED, pending_time := 100, consecutive_fails := 1,
          sers := ⟨1, 8333⟩, timer := some 105 } 105 0
      = some ({ state_ := State.DISCONNECTED, pending_time := 105, consecutive_fails := 2,
                sers := ⟨1, 8333⟩, timer := some 105 },
              [control_write.connect_msg ⟨1, 8333⟩])) := by
  refine ⟨?_, ?_⟩ <;> decide

/-! ## Connection state machine: lifecycle state -/

theorem timer_cb_pending_state (h : cxn_handler) (now : Int)
    (hs : h.state_ ≠ State.CONNECTING) : (h.timer_cb_pending now).state_ = h.state_ := by
  unfold cxn_handler.timer_cb_pending
  dsimp only
  split_ifs <;> simp_all

/-- Outside state CONNECTING the callback always completes and keeps the state. -/
theorem timer_cb_keeps_state (h : cxn_handler) (now : Int) (r : Nat)
    (hs : h.state_ ≠ State.CONNECTING) :
    ∃ h1 w, h.timer_cb now r = some (h1, w) ∧ h1.state_ = h.state_ := by
  have hs1 := timer_cb_pending_state h now hs
  unfold cxn_handler.timer_cb cxn_handler.timer_cb_evaluate
  by_cases hp : (h.timer_cb_pending now).pending_time = 0
  · rw [if_pos hp]
    cases hst : h.state_ with
    | CONNECTING => exact absurd hst hs
    | CONNECTED =>
      rw [hst] at hs1
      rw [hs1]
      dsimp only
      by_cases hf : (h.timer_cb_pending now).consecutive_fails ≠ 0
      · rw [if_pos hf]; exact ⟨_, _, rfl, rfl⟩
      · rw [if_neg hf]; exact ⟨_, _, rfl, hs1⟩
    | DISCONNECTED =>
      rw [hst] at hs1
      rw [hs1]
      exact ⟨_, _, rfl, rfl⟩
  · rw [if_neg hp]
    exact ⟨_, _, rfl, hs1⟩

theorem run_timers_keep_state (ticks : List (Int × Nat)) (h : cxn_handler)
    (hs : h.state_ ≠ State.CONNECTING) :
    ∃ h1, h.run (ticks.map (fun t => cxn_op.timer t.1 t.2)) = some h1
      ∧ h1.state_ = h.state_ := by
  induction ticks generalizing h with
  | nil => exact ⟨h, rfl, rfl⟩
  | cons t ticks ih =>
    obtain ⟨h1, w, hcb, hs1⟩ :=
      timer_cb_keeps_state { h with timer := none } t.1 t.2 hs
    obtain ⟨h2, hrun, hs2⟩ := ih h1 (by rw [hs1]; exact hs)
    refine ⟨h2, ?_, by rw [hs2, hs1]⟩
    simp only [List.map_cons, cxn_handler.run, cxn_handler.apply, cxn_handler.on_timer, hcb,
      Option.map_some', Option.some_bind]
    exact hrun

/-- C5 as stated fails: the callback of a handler in state DISCONNECTED with no pending
attempt sends the connection request and leaves the state DISCONNECTED, not CONNECTING. -/
theorem C5_not_connecting :
    ¬ (∀ (h h1 : cxn_handler) (now : Int) (r : Nat) (w : List control_write),
        h.state_ = State.DISCONNECTED → h.pending_time = 0 →
        h.timer_cb now r = some (h1, w) → h1.state_ = State.CONNECTING) := by
  intro hall
  have hbad := hall
    { state_ := State.DISCONNECTED, pending_time := 0, consecutive_fails := 0,
      sers := ⟨1, 8333⟩, timer := none }
    { state_ := State.DISCONNECTED, pending_time := 100, consecutive_fails := 1,
      sers := ⟨1, 8333⟩, timer := some 100 }
    100 0 [control_write.connect_msg ⟨1, 8333⟩] rfl rfl (by decide)
  exact absurd hbad (by decide)

/-- C5, amended. For a handler in state DISCONNECTED with no pending attempt, the callback
sends exactly one connection request, records the attempt in the pending time only, and
leaves the state DISCONNECTED; the state then stays DISCONNECTED through any number of
further timer callbacks, at any loop times. -/
theorem C5_attempt_keeps_disconnected (h : cxn_handler) (now : Int) (r : Nat)
    (ticks : List (Int × Nat))
    (hs : h.state_ = State.DISCONNECTED) (hp : h.pending_time = 0) :
    ∃ h1 h2, h.timer_cb now r = some (h1, [control_write.connect_msg h.sers])
      ∧ h1.state_ = State.DISCONNECTED ∧ h1.pending_time = now
      ∧ h1.run (ticks.map (fun t => cxn_op.timer t.1 t.2)) = some h2
      ∧ h2.state_ = State.DISCONNECTED := by
  have hs1 : (cxn_handler.set_reconnect_timer
      { h with
        pending_time := now
        consecutive_fails := min 14 ((h.consecutive_fails + 1) % 2 ^ 64) } now r).state_
      = State.DISCONNECTED := hs
  obtain ⟨h2, hrun, hs2⟩ := run_timers_keep_state ticks _ (by rw [hs1]; simp)
  exact ⟨_, h2, timer_cb_disconnected_step h now r hs hp, hs1, rfl, hrun, by rw [hs2, hs1]⟩

/-- C5 amended, on a fresh handler in state DISCONNECTED at loop time 100 followed by two
timer callbacks. -/
theorem C5_attempt_keeps_disconnected_witness :
    ∃ h1 h2 : cxn_handler,
      cxn_handler.timer_cb
          { state_ := State.DISCONNECTED, pending_time := 0, consecutive_fails := 0,
            sers := ⟨1, 8333⟩, timer := none } 100 0
        = some (h1, [control_write.connect_msg ⟨1, 8333⟩])
      ∧ h1.state_ = State.DISCONNECTED ∧ h1.pending_time = 100
      ∧ h1.run ([(100, 0), (2000, 1)].map (fun t => cxn_op.timer t.1 t.2)) = some h2
      ∧ h2.state_ = State.DISCONNECTED :=
  C5_attempt_keeps_disconnected
    { state_ := State.DISCONNECTED, pending_time := 0, consecutive_fails := 0,
      sers := ⟨1, 8333⟩, timer := none } 100 0 [(100, 0), (2000, 1)] rfl rfl

/-! ## Connection state machine: decay of the failure count -/

/-- One timer callback in state CONNECTED with no pending attempt. -/
theorem on_timer_connected_idle (h : cxn_handler) (now : Int) (r : Nat)
    (hs : h.state_ = State.CONNECTED) (hp : h.pending_time = 0) :
    h.on_timer now r =
      some ({ h with
              consecutive_fails := h.consecutive_fails - 1
              timer := if h.consecutive_fails ≠ 0 then some (now + 10) else none }, []) := by
  obtain ⟨st, pt, cf, se, tm⟩ := h
  simp only at hs hp
  subst hs hp
  unfold cxn_handler.on_timer
  rw [timer_cb_of_idle _ now r rfl]
  unfold cxn_handler.timer_cb_evaluate
  dsimp only
  rw [if_pos rfl]
  by_cases hf : cf ≠ 0
  · rw [if_pos hf, if_pos hf]
  · rw [if_neg hf, if_neg hf]
    have h0 : cf = 0 := not_not.mp hf
    simp only [h0]

theorem run_connected_ticks (ticks : List (Int × Nat)) (h : cxn_handler)
    (hs : h.state_ = State.CONNECTED) (hp : h.pending_time = 0) :
    ∃ h1, h.run (ticks.map (fun t => cxn_op.timer t.1 t.2)) = some h1
      ∧ h1.state_ = State.CONNECTED ∧ h1.pending_time = 0
      ∧ h1.consecutive_fails = h.consecutive_fails - ticks.length
      ∧ (h.consecutive_fails < ticks.length → h1.timer = none) := by
  induction ticks generalizing h with
  | nil => exact ⟨h, rfl, hs, hp, rfl, fun hlt => absurd hlt (Nat.not_lt_zero _)⟩
  | cons t ticks ih =>
    have hstep := on_timer_connected_idle h t.1 t.2 hs hp
    obtain ⟨h2, hrun, hs2, hp2, hf2, ht2⟩ := ih
      { h with
        consecutive_fails := h.consecutive_fails - 1
        timer := if h.consecutive_fails ≠ 0 then some (t.1 + 10) else none } hs hp
    refine ⟨h2, ?_, hs2, hp2, ?_, ?_⟩
    · simp only [List.map_cons, cxn_handler.run, cxn_handler.apply, hstep, Option.map_some',
        Option.some_bind]
      exact hrun
    · rw [hf2]
      simp only [List.length_cons]
      omega
    · intro hlt
      simp only [List.length_cons] at hlt
      cases ticks with
      | nil =>
        have h0 : h.consecutive_fails = 0 := by
          simp only [List.length_nil] at hlt; omega
        simp only [List.map_nil, cxn_handler.run, Option.some.injEq] at hrun
        rw [← hrun]
        simp only [h0, ne_eq, not_true_eq_false, if_false]
      | cons t2 ticks2 =>
        apply ht2
        simp only [List.length_cons] at hlt ⊢
        omega

/-- C6. In state CONNECTED with no pending attempt and failure count `f`, one timer
callback writes nothing, and gives count `f - 1` with the timer set 10 seconds ahead when
`f > 0`, and count 0 with the timer left inactive when `f = 0`. Over any sequence of `k`
callbacks (at any loop times) the state stays CONNECTED and the count is `f - k`
(truncated at 0): it reaches 0 after exactly `f` callbacks, and after one callback more
the timer is inactive, so the decay has stopped. -/
theorem C6_backoff_decay (h : cxn_handler) (now : Int) (r : Nat) (ticks : List (Int × Nat))
    (hs : h.state_ = State.CONNECTED) (hp : h.pending_time = 0) :
    (h.consecutive_fails ≠ 0 →
        h.on_timer now r =
          some ({ h with
                  consecutive_fails := h.consecutive_fails - 1
                  timer := some (now + 10) }, []))
    ∧ (h.consecutive_fails = 0 → h.on_timer now r = some ({ h with timer := none }, []))
    ∧ ∃ h1, h.run (ticks.map (fun t => cxn_op.timer t.1 t.2)) = some h1
        ∧ h1.state_ = State.CONNECTED ∧ h1.pending_time = 0
        ∧ h1.consecutive_fails = h.consecutive_fails - ticks.length
        ∧ (ticks.length < h.consecutive_fails → 0 < h1.consecutive_fails)
        ∧ (ticks.length = h.consecutive_fails → h1.consecutive_fails = 0)
        ∧ (h.consecutive_fails < ticks.length → h1.timer = none) := by
  have hstep := on_timer_connected_idle h now r hs hp
  refine ⟨?_, ?_, ?_⟩
  · intro hf
    rw [hstep, if_pos hf]
  · intro hf
    rw [hstep]
    simp only [hf, ne_eq, not_true_eq_false, if_false]
  · obtain ⟨h1, hrun, hs1, hp1, hf1, ht1⟩ := run_connected_ticks ticks h hs hp
    exact ⟨h1, hrun, hs1, hp1, hf1, by omega, by omega, ht1⟩

/-- C6 on a connected handler with failure count 3: four callbacks, ten seconds apart. -/
theorem C6_backoff_decay_witness :
    (cxn_handler.run
        { state_ := State.CONNECTED, pending_time := 0, consecutive_fails := 3,
          sers := ⟨1, 8333⟩, timer := some 110 }
        ([(110, 0), (120, 0), (130, 0), (140, 0)].map (fun t => cxn_op.timer t.1 t.2))
      = some { state_ := State.CONNECTED, pending_time := 0, consecutive_fails := 0,
               sers := ⟨1, 8333⟩, timer := none })
    ∧ ∃ h1 : cxn_handler,
        cxn_handler.run
            { state_ := State.CONNECTED, pending_time := 0, consecutive_fails := 3,
              sers := ⟨1, 8333⟩, timer := some 110 }
            ([(110, 0), (120, 0), (130, 0), (140, 0)].map (fun t => cxn_op.timer t.1 t.2))
          = some h1
        ∧ h1.state_ = State.CONNECTED ∧ h1.pending_time = 0
        ∧ h1.consecutive_fails = 3 - 4 :=
  ⟨by decide,
   let ⟨h1, hrun, hs1, hp1, hf1, _⟩ :=
     (C6_backoff_decay
        { state_ := State.CONNECTED, pending_time := 0, consecutive_fails := 3,
          sers := ⟨1, 8333⟩, timer := some 110 }
        110 0 [(110, 0), (120, 0), (130, 0), (140, 0)] rfl rfl).2.2
   ⟨h1, hrun, hs1, hp1, hf1⟩⟩

/-! ## Connection state machine: external transitions -/

/-- C7. The call `state(s)` returns the prior state, sets the state to `s` and the pending
time to 0, keeps the failure count and the prepared request, and writes nothing to the
control socket. When `s` is DISCONNECTED and the timer is inactive, the timer is set by
`set_reconnect_timer` (due `reconnect_delay` of the draw after the loop time); in every
other case the timer is left as it was. -/
theorem C7_state_transition (h : cxn_handler) (s : State) (now : Int) (r : Nat) :
    (h.state s now r).1 = h.state_
    ∧ (h.state s now r).2.1.state_ = s
    ∧ (h.state s now r).2.1.pending_time = 0
    ∧ (h.state s now r).2.1.consecutive_fails = h.consecutive_fails
    ∧ (h.state s now r).2.1.sers = h.sers
    ∧ (h.state s now r).2.2 = []
    ∧ (s = State.DISCONNECTED ∧ h.timer = none →
        (h.state s now r).2.1.timer
          = some (now + reconnect_delay (uid r (h.consecutive_fails % 2 ^ 32))))
    ∧ (¬ (s = State.DISCONNECTED ∧ h.timer = none) →
        (h.state s now r).2.1.timer = h.timer)
    ∧ ((h.state s now r).2.1.timer ≠ h.timer → s = State.DISCONNECTED ∧ h.timer = none) := by
  have hk :
      (h.state s now r).2.1.timer = h.timer ∨
        (s = State.DISCONNECTED ∧ h.timer = none ∧
          (h.state s now r).2.1.timer
            = some (now + reconnect_delay (uid r (h.consecutive_fails % 2 ^ 32)))) := by
    unfold cxn_handler.state
    dsimp only
    by_cases hc : s = State.DISCONNECTED ∧ ¬ h.timer.isSome = true
    · rw [if_pos hc]
      right
      refine ⟨hc.1, ?_, rfl⟩
      cases ht : h.timer with
      | none => rfl
      | some d => rw [ht] at hc; exact absurd rfl hc.2
    · rw [if_neg hc]
      left; rfl
  refine ⟨rfl, ?_, ?_, ?_, ?_, rfl, ?_, ?_, ?_⟩
  · unfold cxn_handler.state; dsimp only; split_ifs <;> rfl
  · unfold cxn_handler.state; rfl
  · unfold cxn_handler.state; dsimp only; split_ifs <;> rfl
  · unfold cxn_handler.state; dsimp only; split_ifs <;> rfl
  · intro hc
    unfold cxn_handler.state
    dsimp only
    rw [if_pos ⟨hc.1, by rw [hc.2]; simp⟩]
    rfl
  · intro hc
    unfold cxn_handler.state
    dsimp only
    rw [if_neg]
    intro hc2
    apply hc
    refine ⟨hc2.1, ?_⟩
    cases ht : h.timer with
    | none => rfl
    | some d => rw [ht] at hc2; exact absurd rfl hc2.2
  · intro hne
    rcases hk with heq | ⟨h1, h2, _⟩
    · exact absurd heq hne
    · exact ⟨h1, h2⟩

/-! ## Peer scheduler: enqueue and the timer callback -/

theorem hid_on_timer_expired (h : hid_handler) (now : Int) (g : List Nat)
    (hex : 10 + h.last_enqueue - now ≤ 0) (hc : h.getaddr_cnt < GETADDR_LIMIT) :
    h.on_timer now g =
      ({ h with timer := none, getaddr_cnt := h.getaddr_cnt + 1 }, g ++ [h.hid]) := by
  unfold hid_handler.on_timer hid_handler.timer_cb
  dsimp only
  rw [if_pos hex, if_pos hc]
  have h32 : (h.getaddr_cnt + 1) % 2 ^ 32 = h.getaddr_cnt + 1 := by
    unfold GETADDR_LIMIT at hc
    exact Nat.mod_eq_of_lt (by omega)
  rw [h32]

theorem hid_on_timer_full (h : hid_handler) (now : Int) (g : List Nat)
    (hex : 10 + h.last_enqueue - now ≤ 0) (hc : ¬ h.getaddr_cnt < GETADDR_LIMIT) :
    h.on_timer now g = ({ h with timer := none }, g) := by
  unfold hid_handler.on_timer hid_handler.timer_cb
  dsimp only
  rw [if_pos hex, if_neg hc]

theorem hid_on_timer_early (h : hid_handler) (now : Int) (g : List Nat)
    (hex : ¬ 10 + h.last_enqueue - now ≤ 0) :
    h.on_timer now g = ({ h with timer := some (now + (10 + h.last_enqueue - now)) }, g) := by
  unfold hid_handler.on_timer hid_handler.timer_cb
  dsimp only
  rw [if_neg hex]

theorem run_loop_inactive (fuel : Nat) (h : hid_handler) (g : List Nat)
    (log : List timer_event) (ht : h.timer = none) :
    h.run_loop fuel g log = (h, g, log) := by
  cases fuel with
  | zero => rfl
  | succ n => unfold hid_handler.run_loop; rw [ht]

theorem run_loop_active (fuel : Nat) (h : hid_handler) (g : List Nat)
    (log : List timer_event) (due : Int) (ht : h.timer = some due) :
    h.run_loop (fuel + 1) g log =
      hid_handler.run_loop fuel (h.on_timer due g).1 (h.on_timer due g).2
        (log ++ [{ time := due, expired := !(h.on_timer due g).1.timer.isSome,
                   pushed := decide ((h.on_timer due g).2.length ≠ g.length) }]) := by
  conv_lhs => unfold hid_handler.run_loop
  rw [ht]

theorem enqueue_twice (h : hid_handler) (t0 t1 : Int) (ht : h.timer = none) :
    (h.enqueue t0).enqueue t1 = { h with timer := some (t0 + 10), last_enqueue := t1 } := by
  obtain ⟨hid, rem, loc, tm, le, sq, cn⟩ := h
  simp only at ht
  subst ht
  rfl

theorem run_loop_after_two_enqueues (h : hid_handler) (g : List Nat) (t0 t1 : Int) (n : Nat)
    (hc : h.getaddr_cnt < GETADDR_LIMIT) (h01 : t0 ≤ t1) (h10 : t1 < t0 + 10) :
    hid_handler.run_loop (n + 2) { h with timer := some (t0 + 10), last_enqueue := t1 } g []
      = ({ h with timer := none, last_enqueue := t1, getaddr_cnt := h.getaddr_cnt + 1 },
         g ++ [h.hid],
         (if t0 < t1 then [{ time := t0 + 10, expired := false, pushed := false }] else [])
            ++ [{ time := t1 + 10, expired := true, pushed := true }]) := by
  have e2 : 10 + t1 - (t1 + 10) ≤ 0 := by omega
  have hlen : decide ((g ++ [h.hid]).length ≠ g.length) = true := by simp
  by_cases hlt : t0 < t1
  · have e1 : ¬ 10 + t1 - (t0 + 10) ≤ 0 := by omega
    have hdue : t0 + 10 + (10 + t1 - (t0 + 10)) = t1 + 10 := by omega
    have s1 := hid_on_timer_early
      { h with timer := some (t0 + 10), last_enqueue := t1 } (t0 + 10) g e1
    dsimp only at s1
    rw [hdue] at s1
    have s2 := hid_on_timer_expired
      { h with timer := some (t1 + 10), last_enqueue := t1 } (t1 + 10) g e2 hc
    dsimp only at s2
    rw [run_loop_active (n + 1) _ g [] (t0 + 10) rfl, s1]
    dsimp only
    rw [run_loop_active n _ g _ (t1 + 10) rfl, s2]
    dsimp only
    rw [run_loop_inactive n _ _ _ rfl, if_pos hlt, hlen]
    simp
  · have heq : t1 = t0 := by omega
    subst heq
    have s2 := hid_on_timer_expired
      { h with timer := some (t1 + 10), last_enqueue := t1 } (t1 + 10) g e2 hc
    dsimp only at s2
    rw [run_loop_active (n + 1) _ g [] (t1 + 10) rfl, s2]
    dsimp only
    rw [run_loop_inactive (n + 1) _ _ _ rfl, if_neg hlt, hlen]
    simp

/-- C8. A scheduler with an inactive timer and a send count below the cap receives
`enqueue` at `t0` and again at `t1`, with `t0 ≤ t1 < t0 + 10`; the event loop then runs
the timer whenever it is due, with no further input. The timer is first due at `t0 + 10`.
When `t0 < t1` the callback at `t0 + 10` only sets the timer again, pushing nothing; the
one callback that finds the waiting period expired runs at `t1 + 10` and pushes the
HandleId once. So the log of callbacks holds exactly one expired callback and exactly one
push, both at `t1 + 10`; the queue has grown by that one HandleId; the timer is inactive
afterwards. This holds for every bound of at least two on the number of callbacks run. -/
theorem C8_getaddr_throttle (h : hid_handler) (g : List Nat) (t0 t1 : Int) (fuel : Nat)
    (ht : h.timer = none) (hc : h.getaddr_cnt < GETADDR_LIMIT)
    (h01 : t0 ≤ t1) (h10 : t1 < t0 + 10) (hfuel : 2 ≤ fuel) :
    ((h.enqueue t0).enqueue t1).timer = some (t0 + 10)
    ∧ (((h.enqueue t0).enqueue t1).run_loop fuel g []).1.timer = none
    ∧ (((h.enqueue t0).enqueue t1).run_loop fuel g []).1.getaddr_cnt = h.getaddr_cnt + 1
    ∧ (((h.enqueue t0).enqueue t1).run_loop fuel g []).2.1 = g ++ [h.hid]
    ∧ (((h.enqueue t0).enqueue t1).run_loop fuel g []).2.2
        = (if t0 < t1 then [{ time := t0 + 10, expired := false, pushed := false }] else [])
            ++ [{ time := t1 + 10, expired := true, pushed := true }]
    ∧ ((((h.enqueue t0).enqueue t1).run_loop fuel g []).2.2.filter (fun e => e.expired))
        = [{ time := t1 + 10, expired := true, pushed := true }]
    ∧ ((((h.enqueue t0).enqueue t1).run_loop fuel g []).2.2.filter (fun e => e.pushed))
        = [{ time := t1 + 10, expired := true, pushed := true }] := by
  obtain ⟨n, rfl⟩ : ∃ n, fuel = n + 2 := ⟨fuel - 2, by omega⟩
  rw [enqueue_twice h t0 t1 ht, run_loop_after_two_enqueues h g t0 t1 n hc h01 h10]
  refine ⟨rfl, rfl, rfl, rfl, rfl, ?_, ?_⟩
  · by_cases hlt : t0 < t1
    · rw [if_pos hlt]; rfl
    · rw [if_neg hlt]; rfl
  · by_cases hlt : t0 < t1
    · rw [if_pos hlt]; rfl
    · rw [if_neg hlt]; rfl

/-- C8 on a fresh scheduler for HandleId 7: enqueue at 100 and at 104, then the loop. -/
theorem C8_getaddr_throttle_witness :
    ((((hid_handler.ctor 7 ⟨1, 8333⟩ ⟨2, 9000⟩).enqueue 100).enqueue 104).run_loop 5 [] []).2.1
        = [7]
    ∧ ((((hid_handler.ctor 7 ⟨1, 8333⟩ ⟨2, 9000⟩).enqueue 100).enqueue 104).run_loop 5 [] []).2.2
        = [{ time := 110, expired := false, pushed := false },
           { time := 114, expired := true, pushed := true }] :=
  ⟨(C8_getaddr_throttle (hid_handler.ctor 7 ⟨1, 8333⟩ ⟨2, 9000⟩) [] 100 104 5 rfl
      (by decide) (by decide) (by decide) (by decide)).2.2.2.1,
   (C8_getaddr_throttle (hid_handler.ctor 7 ⟨1, 8333⟩ ⟨2, 9000⟩) [] 100 104 5 rfl
      (by decide) (by decide) (by decide) (by decide)).2.2.2.2.1⟩

/-- C9. The call `enqueue` at loop time `now` sets `last_enqueue` to `now`; it changes
neither the send count, the round sequence, the HandleId, the endpoints nor the global
pending queue. An inactive timer is set 10 seconds ahead; an active timer keeps its due
time. The scheduler has the one timer of its `timer` field before and after. -/
theorem C9_enqueue_frame (h : hid_handler) (now : Int) (g : List Nat) :
    (h.enqueue now).last_enqueue = now
    ∧ (h.enqueue now).getaddr_cnt = h.getaddr_cnt
    ∧ (h.enqueue now).getaddr_seq = h.getaddr_seq
    ∧ (h.enqueue now).hid = h.hid
    ∧ (h.enqueue now).remote = h.remote
    ∧ (h.enqueue now).local_ = h.local_
    ∧ hid_handler.apply (h, g) (hid_op.enqueue now) = (h.enqueue now, g)
    ∧ (h.timer = none → (h.enqueue now).timer = some (now + 10))
    ∧ (∀ due, h.timer = some due → (h.enqueue now).timer = some due) := by
  obtain ⟨hid, rem, loc, tm, le, sq, cn⟩ := h
  cases tm with
  | none =>
    refine ⟨rfl, rfl, rfl, rfl, rfl, rfl, rfl, fun _ => rfl, ?_⟩
    intro due hd
    exact absurd hd (by simp)
  | some d =>
    refine ⟨rfl, rfl, rfl, rfl, rfl, rfl, rfl, ?_, ?_⟩
    · intro hn
      exact absurd hn (by simp)
    · intro due hd
      simp only [Option.some.injEq] at hd
      subst hd
      rfl

/-! ## Peer scheduler: round quota -/

theorem hid_apply_quota (h : hid_handler) (g : List Nat) (op : hid_op)
    (hc : h.getaddr_cnt ≤ GETADDR_LIMIT) :
    (hid_handler.apply (h, g) op).1.hid = h.hid
    ∧ (hid_handler.apply (h, g) op).1.getaddr_seq = h.getaddr_seq
    ∧ h.getaddr_cnt ≤ (hid_handler.apply (h, g) op).1.getaddr_cnt
    ∧ (hid_handler.apply (h, g) op).1.getaddr_cnt ≤ GETADDR_LIMIT
    ∧ (hid_handler.apply (h, g) op).2
        = g ++ List.replicate ((hid_handler.apply (h, g) op).1.getaddr_cnt - h.getaddr_cnt)
            h.hid := by
  cases op with
  | enqueue now =>
    have h1 : (h.enqueue now).hid = h.hid := by
      unfold hid_handler.enqueue; dsimp only; split_ifs <;> rfl
    have h2 : (h.enqueue now).getaddr_seq = h.getaddr_seq := by
      unfold hid_handler.enqueue; dsimp only; split_ifs <;> rfl
    have h3 : (h.enqueue now).getaddr_cnt = h.getaddr_cnt := by
      unfold hid_handler.enqueue; dsimp only; split_ifs <;> rfl
    simp only [hid_handler.apply, h1, h2, h3, Nat.sub_self, List.replicate_zero,
      List.append_nil, le_refl, hc, and_self]
  | timer now =>
    simp only [hid_handler.apply]
    by_cases hex : 10 + h.last_enqueue - now ≤ 0
    · by_cases hlt : h.getaddr_cnt < GETADDR_LIMIT
      · rw [hid_on_timer_expired h now g hex hlt]
        refine ⟨rfl, rfl, Nat.le_succ _, hlt, ?_⟩
        simp
      · rw [hid_on_timer_full h now g hex hlt]
        refine ⟨rfl, rfl, le_refl _, hc, ?_⟩
        simp
    · rw [hid_on_timer_early h now g hex]
      refine ⟨rfl, rfl, le_refl _, hc, ?_⟩
      simp

theorem hid_run_quota (ops : List hid_op) (h : hid_handler) (g : List Nat)
    (hc : h.getaddr_cnt ≤ GETADDR_LIMIT) :
    (hid_handler.run (h, g) ops).1.hid = h.hid
    ∧ (hid_handler.run (h, g) ops).1.getaddr_seq = h.getaddr_seq
    ∧ h.getaddr_cnt ≤ (hid_handler.run (h, g) ops).1.getaddr_cnt
    ∧ (hid_handler.run (h, g) ops).1.getaddr_cnt ≤ GETADDR_LIMIT
    ∧ (hid_handler.run (h, g) ops).2
        = g ++ List.replicate ((hid_handler.run (h, g) ops).1.getaddr_cnt - h.getaddr_cnt)
            h.hid := by
  induction ops generalizing h g with
  | nil =>
    simp only [hid_handler.run, List.foldl_nil, Nat.sub_self, List.replicate_zero,
      List.append_nil, le_refl, hc, and_self]
  | cons op ops ih =>
    have hstep := hid_apply_quota h g op hc
    rcases hA : hid_handler.apply (h, g) op with ⟨h1, g1⟩
    rw [hA] at hstep
    obtain ⟨a1, a2, a3, a4, a5⟩ := hstep
    dsimp only at a1 a2 a3 a4 a5
    obtain ⟨b1, b2, b3, b4, b5⟩ := ih h1 g1 a4
    have hrun : hid_handler.run (h, g) (op :: ops) = hid_handler.run (h1, g1) ops := by
      simp only [hid_handler.run, List.foldl_cons, hA]
    rw [hrun]
    generalize hid_handler.run (h1, g1) ops = res at b1 b2 b3 b4 b5
    refine ⟨by rw [b1, a1], by rw [b2, a2], le_trans a3 b3, b4, ?_⟩
    rw [b5, a5, a1, List.append_assoc, ← List.replicate_add]
    congr 2
    omega

/-- C10. Take a scheduler whose send count is within the cap (as it is at the start of a
round, where it is 0) and apply any finite sequence of `enqueue` calls and timer
callbacks, at any loop times. The round sequence is unchanged, the pending queue has
grown by exactly `count after - count before` copies of the HandleId and by nothing else,
the send count is at most 24, and so at most 24 entries were pushed; from a count of 0
the number of pushes equals the send count. -/
theorem C10_round_quota (h : hid_handler) (g : List Nat) (ops : List hid_op)
    (hc : h.getaddr_cnt ≤ GETADDR_LIMIT) :
    (hid_handler.run (h, g) ops).1.getaddr_seq = h.getaddr_seq
    ∧ (hid_handler.run (h, g) ops).2
        = g ++ List.replicate ((hid_handler.run (h, g) ops).1.getaddr_cnt - h.getaddr_cnt)
            h.hid
    ∧ (hid_handler.run (h, g) ops).2.length - g.length
        = (hid_handler.run (h, g) ops).1.getaddr_cnt - h.getaddr_cnt
    ∧ (hid_handler.run (h, g) ops).1.getaddr_cnt ≤ 24
    ∧ (hid_handler.run (h, g) ops).2.length - g.length ≤ 24
    ∧ (h.getaddr_cnt = 0 →
        (hid_handler.run (h, g) ops).2.length - g.length
          = (hid_handler.run (h, g) ops).1.getaddr_cnt) := by
  obtain ⟨_, b2, b3, b4, b5⟩ := hid_run_quota ops h g hc
  have hlen : (hid_handler.run (h, g) ops).2.length - g.length
      = (hid_handler.run (h, g) ops).1.getaddr_cnt - h.getaddr_cnt := by
    rw [b5]
    simp only [List.length_append, List.length_replicate]
    omega
  unfold GETADDR_LIMIT at b4
  refine ⟨b2, b5, hlen, b4, ?_, ?_⟩
  · rw [hlen]; omega
  · intro h0
    rw [hlen, h0, Nat.sub_zero]

set_option maxRecDepth 8000 in
/-- C10 on a fresh scheduler for HandleId 7: one enqueue at time 0 and thirty timer
callbacks at time 10 push 24 entries, not 30. -/
theorem C10_round_quota_witness :
    (hid_handler.run (hid_handler.ctor 7 ⟨1, 8333⟩ ⟨2, 9000⟩, [])
        (hid_op.enqueue 0 :: List.replicate 30 (hid_op.timer 10))).2
      = List.replicate 24 7
    ∧ (hid_handler.run (hid_handler.ctor 7 ⟨1, 8333⟩ ⟨2, 9000⟩, [])
        (hid_op.enqueue 0 :: List.replicate 30 (hid_op.timer 10))).1.getaddr_cnt ≤ 24 :=
  ⟨by decide,
   (C10_round_quota (hid_handler.ctor 7 ⟨1, 8333⟩ ⟨2, 9000⟩) []
      (hid_op.enqueue 0 :: List.replicate 30 (hid_op.timer 10)) (by decide)).2.2.2.1⟩

/-! ## Peer scheduler: a new round -/

/-- C11. The call `set_sequence(s)` on a scheduler with stored sequence `q` and count `c`:
when `s ≠ q` the sequence becomes `s` and the count 0, so that the timer callback may
push again (a callback that finds the waiting period expired pushes the HandleId);
when `s = q` the scheduler is unchanged. In both cases `last_enqueue`, the timer, the
HandleId and the endpoints are unchanged, and the pending queue is not touched. -/
theorem C11_set_sequence (h : hid_handler) (s : Nat) (g : List Nat) :
    (s ≠ h.getaddr_seq →
        (h.set_sequence s).getaddr_seq = s ∧ (h.set_sequence s).getaddr_cnt = 0
        ∧ ∀ now, 10 + h.last_enqueue - now ≤ 0 →
            ((h.set_sequence s).on_timer now g).2 = g ++ [h.hid]
            ∧ ((h.set_sequence s).on_timer now g).1.getaddr_cnt = 1)
    ∧ (s = h.getaddr_seq → h.set_sequence s = h)
    ∧ (h.set_sequence s).last_enqueue = h.last_enqueue
    ∧ (h.set_sequence s).timer = h.timer
    ∧ (h.set_sequence s).hid = h.hid
    ∧ (h.set_sequence s).remote = h.remote
    ∧ (h.set_sequence s).local_ = h.local_ := by
  by_cases hs : s = h.getaddr_seq
  · have he : h.set_sequence s = h := by
      unfold hid_handler.set_sequence
      rw [if_neg (not_not.mpr hs)]
    rw [he]
    exact ⟨fun hne => absurd hs hne, fun _ => rfl, rfl, rfl, rfl, rfl, rfl⟩
  · have he : h.set_sequence s = { h with getaddr_seq := s, getaddr_cnt := 0 } := by
      unfold hid_handler.set_sequence
      rw [if_pos hs]
    rw [he]
    refine ⟨fun _ => ⟨rfl, rfl, ?_⟩, fun heq => absurd heq hs, rfl, rfl, rfl, rfl, rfl⟩
    intro now hex
    have hstep := hid_on_timer_expired
      { h with getaddr_seq := s, getaddr_cnt := 0 } now g hex
      (show 0 < GETADDR_LIMIT by decide)
    rw [hstep]
    exact ⟨rfl, rfl⟩

set_option maxRecDepth 8000 in
/-- The count after `set_sequence` with a new value allows 24 further pushes: a scheduler
that has used up its round is given sequence 5 and then pushes 24 times, not 30. -/
theorem set_sequence_refills_quota :
    (hid_handler.run
        (hid_handler.set_sequence
          { hid := 7, remote := ⟨1, 8333⟩, local_ := ⟨2, 9000⟩, timer := none,
            last_enqueue := 0, getaddr_seq := 0, getaddr_cnt := 24 } 5, [])
        (List.replicate 30 (hid_op.timer 10))).2 = List.replicate 24 7 := by
  decide

/-! ## Batch dispatcher -/

/-- C12. The callback of the dispatcher on a pending queue `q` leaves the queue empty. When
`q` is not empty it writes exactly one send-to-handles command, carrying the registered
identifier `g_msg_id` and the list `q` itself (same elements, same order, duplicates
kept); when `q` is empty it writes nothing. The queue 5, 5, 7 is sent as 5, 5, 7. -/
theorem C12_batch_flush (g_msg_id : Nat) (q : List Nat) :
    (getaddr_pusher.timer_cb g_msg_id q).2 = []
    ∧ (q ≠ [] →
        (getaddr_pusher.timer_cb g_msg_id q).1 = [control_write.command_send_msg g_msg_id q])
    ∧ (q = [] → (getaddr_pusher.timer_cb g_msg_id q).1 = [])
    ∧ getaddr_pusher.timer_cb g_msg_id [5, 5, 7]
        = ([control_write.command_send_msg g_msg_id [5, 5, 7]], []) := by
  refine ⟨rfl, ?_, ?_, rfl⟩
  · intro hq
    have hlen : ¬ q.length = 0 := fun h0 => hq (List.length_eq_zero.mp h0)
    simp only [getaddr_pusher.timer_cb, send_getaddrs, if_neg hlen]
  · intro hq
    subst hq
    rfl

/-! ## Registry: the constructor of a connection state machine -/

theorem ctor_connected (remote_ : sockaddr_in) (now : Int) (r : Nat) :
    cxn_handler.ctor remote_ State.CONNECTED now r
      = some ({ state_ := State.CONNECTED, pending_time := 0, consecutive_fails := 0,
                sers := remote_, timer := none }, []) := by
  unfold cxn_handler.ctor
  rw [timer_cb_of_idle _ now r rfl]
  rfl

theorem ctor_disconnected (remote_ : sockaddr_in) (now : Int) (r : Nat) :
    cxn_handler.ctor remote_ State.DISCONNECTED now r
      = some ({ state_ := State.DISCONNECTED, pending_time := now, consecutive_fails := 1,
                sers := remote_, timer := some (now + reconnect_delay (uid r 1)) },
              [control_write.connect_msg remote_]) := by
  unfold cxn_handler.ctor
  rw [timer_cb_disconnected_idle _ now r rfl rfl (Nat.zero_le 14)]
  rfl

theorem state_sets_state (h : cxn_handler) (s : State) (now : Int) (r : Nat) :
    (h.state s now r).2.1.state_ = s := by
  unfold cxn_handler.state
  dsimp only
  split_ifs <;> rfl

theorem state_writes_nothing (h : cxn_handler) (s : State) (now : Int) (r : Nat) :
    (h.state s now r).2.2 = [] := rfl

/-! ## Registry: disconnect and connect notifications -/

theorem disconnect_cb_new (G : globals) (H : Nat) (E : sockaddr_in) (now : Int) (r : Nat)
    (hc : G.g_cxns E = none) :
    disconnect_cb G H E now r =
      some ({ G with
              g_known_addrs := map_assign G.g_known_addrs E NO_HANDLE
              g_cxns := map_insert G.g_cxns E
                { state_ := State.DISCONNECTED, pending_time := now, consecutive_fails := 1,
                  sers := E, timer := some (now + reconnect_delay (uid r 1)) }
              g_known_hids := map_erase G.g_known_hids H },
            [control_write.connect_msg E]) := by
  unfold disconnect_cb
  rw [hc, ctor_disconnected]

theorem disconnect_cb_known (G : globals) (H : Nat) (E : sockaddr_in) (now : Int) (r : Nat)
    (c0 : cxn_handler) (hc : G.g_cxns E = some c0) :
    disconnect_cb G H E now r =
      some ({ G with
              g_known_addrs := map_assign G.g_known_addrs E NO_HANDLE
              g_cxns := map_assign G.g_cxns E (c0.state State.DISCONNECTED now r).2.1
              g_known_hids := map_erase G.g_known_hids H }, []) := by
  unfold disconnect_cb
  rw [hc]
  rfl

theorem connect_cb_new (G : globals) (H : Nat) (E L : sockaddr_in) (now : Int) (r : Nat)
    (hc : G.g_cxns E = none) :
    connect_cb G H E L now r =
      some ({ G with
              g_known_addrs := map_assign G.g_known_addrs E H
              g_cxns := map_insert G.g_cxns E
                { state_ := State.CONNECTED, pending_time := 0, consecutive_fails := 0,
                  sers := E, timer := none }
              g_known_hids := map_insert (map_erase G.g_known_hids H) H
                (hid_handler.ctor H E L) }, []) := by
  unfold connect_cb
  rw [hc, ctor_connected]

theorem connect_cb_known (G : globals) (H : Nat) (E L : sockaddr_in) (now : Int) (r : Nat)
    (c0 : cxn_handler) (hc : G.g_cxns E = some c0) :
    connect_cb G H E L now r =
      some ({ G with
              g_known_addrs := map_assign G.g_known_addrs E H
              g_cxns := map_assign G.g_cxns E (c0.state State.CONNECTED now r).2.1
              g_known_hids := map_insert (map_erase G.g_known_hids H) H
                (hid_handler.ctor H E L) }, []) := by
  unfold connect_cb
  rw [hc]
  rfl

theorem map_insert_of_none {K V : Type} [DecidableEq K] (m : K → Option V) (k : K) (v : V)
    (hk : m k = none) : map_insert m k v = map_assign m k v := by
  funext x
  unfold map_insert map_assign
  rw [hk]

theorem map_fresh_entry {V : Type} (m : Nat → Option V) (k : Nat) (v : V) :
    map_insert (map_erase m k) k v = map_assign m k v := by
  funext x
  unfold map_insert map_assign map_erase
  by_cases hx : x = k
  · simp [hx]
  · simp [hx]

theorem map_assign_same {K V : Type} [DecidableEq K] (m : K → Option V) (k : K) (v : V) :
    map_assign m k v k = some v := by
  unfold map_assign
  rw [if_pos rfl]

theorem map_assign_other {K V : Type} [DecidableEq K] (m : K → Option V) (k x : K) (v : V)
    (hx : x ≠ k) : map_assign m k v x = m x := by
  unfold map_assign
  rw [if_neg hx]

theorem map_erase_same {K V : Type} [DecidableEq K] (m : K → Option V) (k : K) :
    map_erase m k k = none := by
  unfold map_erase
  rw [if_pos rfl]

theorem map_erase_other {K V : Type} [DecidableEq K] (m : K → Option V) (k x : K)
    (hx : x ≠ k) : map_erase m k x = m x := by
  unfold map_erase
  rw [if_neg hx]

/-- C16. The disconnect callback for HandleId `H` and remote endpoint `E` always completes.
Afterwards the map of schedules has no entry for `H` (and its other entries are as
before), the handle mapping of `E` is the sentinel `~0`, and the map of connection state
machines has a machine for `E` in state DISCONNECTED: the one built by the constructor
when there was none, the old one after `state(DISCONNECTED)` otherwise. -/
theorem C16_disconnect_cleanup (G : globals) (H : Nat) (E : sockaddr_in) (now : Int) (r : Nat) :
    ∃ G1 w c, disconnect_cb G H E now r = some (G1, w)
      ∧ G1.g_known_hids H = none
      ∧ (∀ H2, H2 ≠ H → G1.g_known_hids H2 = G.g_known_hids H2)
      ∧ G1.g_known_addrs E = some NO_HANDLE
      ∧ NO_HANDLE = 2 ^ 32 - 1
      ∧ G1.g_cxns E = some c ∧ c.state_ = State.DISCONNECTED
      ∧ (G.g_cxns E = none → cxn_handler.ctor E State.DISCONNECTED now r = some (c, w))
      ∧ (∀ c0, G.g_cxns E = some c0 → c = (c0.state State.DISCONNECTED now r).2.1) := by
  cases hc : G.g_cxns E with
  | none =>
    refine ⟨_, _, { state_ := State.DISCONNECTED, pending_time := now, consecutive_fails := 1,
                    sers := E, timer := some (now + reconnect_delay (uid r 1)) },
      disconnect_cb_new G H E now r hc, ?_, ?_, ?_, ?_, ?_, ?_, ?_, ?_⟩
    · exact map_erase_same _ _
    · intro H2 hne
      exact map_erase_other _ _ _ hne
    · exact map_assign_same _ _ _
    · decide
    · show map_insert G.g_cxns E _ E = _
      rw [map_insert_of_none _ _ _ hc]
      exact map_assign_same _ _ _
    · rfl
    · intro _
      exact ctor_disconnected E now r
    · intro c0 h0
      exact absurd h0 (by simp)
  | some c0 =>
    refine ⟨_, _, (c0.state State.DISCONNECTED now r).2.1,
      disconnect_cb_known G H E now r c0 hc, ?_, ?_, ?_, ?_, ?_, ?_, ?_, ?_⟩
    · exact map_erase_same _ _
    · intro H2 hne
      exact map_erase_other _ _ _ hne
    · exact map_assign_same _ _ _
    · decide
    · exact map_assign_same _ _ _
    · exact state_sets_state c0 State.DISCONNECTED now r
    · intro h0
      exact absurd h0 (by simp)
    · intro c1 h1
      simp only [Option.some.injEq] at h1
      rw [h1]

/-- C18. The connect callback for HandleId `H`, remote endpoint `E` and local endpoint
`L` always completes. Afterwards the handle mapping of `E` is `H`; the map of connection
state machines has a machine for `E` in state CONNECTED, which is the old one after
`state(CONNECTED)` with its failure count kept when there was one, and a new one with
failure count 0 otherwise; in both cases nothing is written to the control socket. The
map of schedules has under `H` the schedule just built (send count 0, round sequence 0,
inactive timer, remote `E`, local `L`) whatever it held before, and its other entries
are as before. -/
theorem C18_connect_notification (G : globals) (H : Nat) (E L : sockaddr_in) (now : Int)
    (r : Nat) :
    ∃ G1 c, connect_cb G H E L now r = some (G1, [])
      ∧ G1.g_known_addrs E = some H
      ∧ G1.g_cxns E = some c ∧ c.state_ = State.CONNECTED
      ∧ (∀ c0, G.g_cxns E = some c0 →
          c = (c0.state State.CONNECTED now r).2.1
          ∧ c.consecutive_fails = c0.consecutive_fails)
      ∧ (G.g_cxns E = none →
          cxn_handler.ctor E State.CONNECTED now r = some (c, []) ∧ c.consecutive_fails = 0)
      ∧ G1.g_known_hids H
          = some { hid := H, remote := E, local_ := L, timer := none, last_enqueue := 0,
                   getaddr_seq := 0, getaddr_cnt := 0 }
      ∧ (∀ H2, H2 ≠ H → G1.g_known_hids H2 = G.g_known_hids H2) := by
  cases hc : G.g_cxns E with
  | none =>
    refine ⟨_, { state_ := State.CONNECTED, pending_time := 0, consecutive_fails := 0,
                 sers := E, timer := none },
      connect_cb_new G H E L now r hc, ?_, ?_, ?_, ?_, ?_, ?_, ?_⟩
    · exact map_assign_same _ _ _
    · show map_insert G.g_cxns E _ E = _
      rw [map_insert_of_none _ _ _ hc]
      exact map_assign_same _ _ _
    · rfl
    · intro c0 h0
      exact absurd h0 (by simp)
    · intro _
      exact ⟨ctor_connected E now r, rfl⟩
    · show map_insert (map_erase G.g_known_hids H) H _ H = _
      rw [map_fresh_entry]
      exact map_assign_same _ _ _
    · intro H2 hne
      show map_insert (map_erase G.g_known_hids H) H _ H2 = _
      rw [map_fresh_entry]
      exact map_assign_other _ _ _ _ hne
  | some c0 =>
    refine ⟨_, (c0.state State.CONNECTED now r).2.1,
      connect_cb_known G H E L now r c0 hc, ?_, ?_, ?_, ?_, ?_, ?_, ?_⟩
    · exact map_assign_same _ _ _
    · exact map_assign_same _ _ _
    · exact state_sets_state c0 State.CONNECTED now r
    · intro c1 h1
      simp only [Option.some.injEq] at h1
      rw [h1]
      exact ⟨rfl, state_fails c1 State.CONNECTED now r⟩
    · intro h0
      exact absurd h0 (by simp)
    · show map_insert (map_erase G.g_known_hids H) H _ H = _
      rw [map_fresh_entry]
      exact map_assign_same _ _ _
    · intro H2 hne
      show map_insert (map_erase G.g_known_hids H) H _ H2 = _
      rw [map_fresh_entry]
      exact map_assign_other _ _ _ _ hne

/-! ## Connection state machine: the assertion -/

/-- The operations the program applies to a `cxn_handler`: its timer, and `state(s)` with
`s` one of CONNECTED and DISCONNECTED. -/
theorem apply_never_connecting (h : cxn_handler) (op : cxn_op)
    (hs : h.state_ ≠ State.CONNECTING)
    (hop : ∀ s now r, op = cxn_op.set_state s now r → s ≠ State.CONNECTING) :
    ∃ h1, h.apply op = some h1 ∧ h1.state_ ≠ State.CONNECTING := by
  cases op with
  | timer now r =>
    obtain ⟨h1, w, hcb, hs1⟩ := timer_cb_keeps_state { h with timer := none } now r hs
    refine ⟨h1, ?_, by rw [hs1]; exact hs⟩
    simp only [cxn_handler.apply, cxn_handler.on_timer, hcb, Option.map_some']
  | set_state s now r =>
    refine ⟨(h.state s now r).2.1, rfl, ?_⟩
    rw [state_sets_state]
    exact hop s now r rfl

theorem run_never_connecting (ops : List cxn_op) (h : cxn_handler)
    (hs : h.state_ ≠ State.CONNECTING)
    (hops : ∀ op ∈ ops, ∀ s now r, op = cxn_op.set_state s now r → s ≠ State.CONNECTING) :
    ∃ h1, h.run ops = some h1 ∧ h1.state_ ≠ State.CONNECTING := by
  induction ops generalizing h with
  | nil => exact ⟨h, rfl, hs⟩
  | cons op ops ih =>
    obtain ⟨h1, hap, hs1⟩ :=
      apply_never_connecting h op hs (hops op (List.mem_cons_self op ops))
    obtain ⟨h2, hrun, hs2⟩ :=
      ih h1 hs1 (fun o ho => hops o (List.mem_cons_of_mem op ho))
    refine ⟨h2, ?_, hs2⟩
    simp only [cxn_handler.run, hap, Option.some_bind]
    exact hrun

/-- C20. Build a handler in state DISCONNECTED or CONNECTED and apply any finite sequence
of timer callbacks and calls `state(CONNECTED)` or `state(DISCONNECTED)`, at any loop
times. The constructor and every operation complete, which in the model means that
`assert(timer.is_active())` has not failed, and the state reached is not CONNECTING.
As every initial part of such a sequence is such a sequence, no callback of the run
starts in state CONNECTING, so the branch with the assertion is not entered. -/
theorem C20_assert_unreachable (remote_ : sockaddr_in) (s : State) (now : Int) (r : Nat)
    (ops : List cxn_op)
    (hs : s = State.DISCONNECTED ∨ s = State.CONNECTED)
    (hops : ∀ op ∈ ops, ∀ s1 now1 r1, op = cxn_op.set_state s1 now1 r1 →
      s1 = State.CONNECTED ∨ s1 = State.DISCONNECTED) :
    ∃ h0 w h, cxn_handler.ctor remote_ s now r = some (h0, w)
      ∧ h0.state_ ≠ State.CONNECTING
      ∧ h0.run ops = some h
      ∧ h.state_ ≠ State.CONNECTING
      ∧ ∀ k, ∃ hk, h0.run (ops.take k) = some hk ∧ hk.state_ ≠ State.CONNECTING := by
  have hne : ∀ s1 : State, s1 = State.CONNECTED ∨ s1 = State.DISCONNECTED →
      s1 ≠ State.CONNECTING := by
    intro s1 h1
    rcases h1 with h1 | h1 <;> rw [h1] <;> simp
  have hops1 : ∀ op ∈ ops, ∀ s1 now1 r1, op = cxn_op.set_state s1 now1 r1 →
      s1 ≠ State.CONNECTING := fun op ho s1 now1 r1 he => hne s1 (hops op ho s1 now1 r1 he)
  have hctor : ∃ h0 w, cxn_handler.ctor remote_ s now r = some (h0, w)
      ∧ h0.state_ ≠ State.CONNECTING := by
    rcases hs with hs | hs
    · rw [hs]
      exact ⟨_, _, ctor_disconnected remote_ now r, by simp⟩
    · rw [hs]
      exact ⟨_, _, ctor_connected remote_ now r, by simp⟩
  obtain ⟨h0, w, hc, hs0⟩ := hctor
  obtain ⟨h, hrun, hsh⟩ := run_never_connecting ops h0 hs0 hops1
  refine ⟨h0, w, h, hc, hs0, hrun, hsh, ?_⟩
  intro k
  exact run_never_connecting (ops.take k) h0 hs0
    (fun op ho => hops1 op (List.mem_of_mem_take ho))

/-- C20 on a handler built in state DISCONNECTED at time 100, whose timer runs at once,
which is then told of a connect and later of a disconnect. -/
theorem C20_assert_unreachable_witness :
    ∃ h0 w h, cxn_handler.ctor ⟨1, 8333⟩ State.DISCONNECTED 100 0 = some (h0, w)
      ∧ h0.state_ ≠ State.CONNECTING
      ∧ h0.run [cxn_op.timer 100 0, cxn_op.set_state State.CONNECTED 130 0,
                cxn_op.timer 140 0, cxn_op.set_state State.DISCONNECTED 200 3] = some h
      ∧ h.state_ ≠ State.CONNECTING
      ∧ ∀ k, ∃ hk,
          h0.run ([cxn_op.timer 100 0, cxn_op.set_state State.CONNECTED 130 0,
                   cxn_op.timer 140 0, cxn_op.set_state State.DISCONNECTED 200 3].take k)
            = some hk
          ∧ hk.state_ ≠ State.CONNECTING :=
  C20_assert_unreachable ⟨1, 8333⟩ State.DISCONNECTED 100 0
    [cxn_op.timer 100 0, cxn_op.set_state State.CONNECTED 130 0,
     cxn_op.timer 140 0, cxn_op.set_state State.DISCONNECTED 200 3]
    (Or.inl rfl)
    (by
      intro op ho s1 now1 r1 he
      subst he
      simp only [List.mem_cons, List.mem_singleton, cxn_op.set_state.injEq, reduceCtorEq,
        false_or, List.not_mem_nil, or_false] at ho
      rcases ho with ho | ho
      · exact Or.inl ho.1
      · exact Or.inr ho.1)

/-! ## Registry: consistency of the two maps -/

theorem inventory_cb_eq (G : globals) (hid : Nat) (remote local_ : sockaddr_in) (now : Int)
    (r : Nat) (hh : G.g_known_hids hid = none) (hc : G.g_cxns remote = none) :
    inventory_cb G hid remote local_ now r =
      some ({ G with
              g_known_addrs := map_insert G.g_known_addrs remote hid
              g_cxns := map_assign G.g_cxns remote
                { state_ := State.CONNECTED, pending_time := 0, consecutive_fails := 0,
                  sers := remote, timer := none }
              g_known_hids := map_assign G.g_known_hids hid
                (hid_handler.ctor hid remote local_) }, []) := by
  unfold inventory_cb
  rw [ctor_connected]
  dsimp only
  rw [map_insert_of_none _ _ _ hh, map_insert_of_none _ _ _ hc]

theorem consistent_after_connect (G G1 : globals) (hid : Nat) (remote : sockaddr_in)
    (c1 : cxn_handler) (fresh : hid_handler)
    (hinv : registry_consistent G) (hown : handle_owns G hid remote)
    (hcx : G1.g_cxns = map_assign G.g_cxns remote c1) (hst : c1.state_ = State.CONNECTED)
    (hhd : G1.g_known_hids = map_assign G.g_known_hids hid fresh)
    (hfr : fresh.remote = remote) : registry_consistent G1 := by
  intro E
  by_cases hE : E = remote
  · subst hE
    constructor
    · intro _
      exact ⟨hid, fresh, by rw [hhd]; exact map_assign_same _ _ _, hfr⟩
    · intro _
      exact ⟨c1, by rw [hcx]; exact map_assign_same _ _ _, hst⟩
  · constructor
    · rintro ⟨c, hc, hs⟩
      rw [hcx, map_assign_other _ _ _ _ hE] at hc
      obtain ⟨hid2, h2, hm, hr⟩ := (hinv E).mp ⟨c, hc, hs⟩
      have hne : hid2 ≠ hid := by
        intro he
        subst he
        exact hE (by rw [← hr]; exact hown.1 h2 hm)
      exact ⟨hid2, h2, by rw [hhd, map_assign_other _ _ _ _ hne]; exact hm, hr⟩
    · rintro ⟨hid2, h2, hm, hr⟩
      rw [hhd] at hm
      by_cases hne : hid2 = hid
      · subst hne
        rw [map_assign_same] at hm
        simp only [Option.some.injEq] at hm
        subst hm
        exact absurd (hr.symm.trans hfr) hE
      · rw [map_assign_other _ _ _ _ hne] at hm
        obtain ⟨c, hc, hs⟩ := (hinv E).mpr ⟨hid2, h2, hm, hr⟩
        exact ⟨c, by rw [hcx, map_assign_other _ _ _ _ hE]; exact hc, hs⟩

theorem consistent_after_disconnect (G G1 : globals) (hid : Nat) (remote : sockaddr_in)
    (c1 : cxn_handler)
    (hinv : registry_consistent G) (hown : handle_owns G hid remote)
    (hcx : G1.g_cxns = map_assign G.g_cxns remote c1) (hst : c1.state_ = State.DISCONNECTED)
    (hhd : G1.g_known_hids = map_erase G.g_known_hids hid) : registry_consistent G1 := by
  intro E
  by_cases hE : E = remote
  · subst hE
    constructor
    · rintro ⟨c, hc, hs⟩
      rw [hcx, map_assign_same] at hc
      simp only [Option.some.injEq] at hc
      subst hc
      rw [hst] at hs
      exact absurd hs (by simp)
    · rintro ⟨hid2, h2, hm, hr⟩
      rw [hhd] at hm
      by_cases hne : hid2 = hid
      · subst hne
        rw [map_erase_same] at hm
        exact absurd hm (by simp)
      · rw [map_erase_other _ _ _ hne] at hm
        exact absurd (hown.2 hid2 h2 hm hr) hne
  · constructor
    · rintro ⟨c, hc, hs⟩
      rw [hcx, map_assign_other _ _ _ _ hE] at hc
      obtain ⟨hid2, h2, hm, hr⟩ := (hinv E).mp ⟨c, hc, hs⟩
      have hne : hid2 ≠ hid := by
        intro he
        subst he
        exact hE (by rw [← hr]; exact hown.1 h2 hm)
      exact ⟨hid2, h2, by rw [hhd, map_erase_other _ _ _ hne]; exact hm, hr⟩
    · rintro ⟨hid2, h2, hm, hr⟩
      rw [hhd] at hm
      by_cases hne : hid2 = hid
      · subst hne
        rw [map_erase_same] at hm
        exact absurd hm (by simp)
      · rw [map_erase_other _ _ _ hne] at hm
        obtain ⟨c, hc, hs⟩ := (hinv E).mpr ⟨hid2, h2, hm, hr⟩
        exact ⟨c, by rw [hcx, map_assign_other _ _ _ _ hE]; exact hc, hs⟩

theorem consistent_after_timer (G G1 : globals) (remote : sockaddr_in) (c c1 : cxn_handler)
    (hinv : registry_consistent G) (hc : G.g_cxns remote = some c)
    (hst : c1.state_ = c.state_)
    (hcx : G1.g_cxns = map_assign G.g_cxns remote c1)
    (hhd : G1.g_known_hids = G.g_known_hids) : registry_consistent G1 := by
  intro E
  have href : endpoint_referenced G1 E ↔ endpoint_referenced G E := by
    unfold endpoint_referenced
    rw [hhd]
  have hcon : endpoint_connected G1 E ↔ endpoint_connected G E := by
    unfold endpoint_connected
    rw [hcx]
    by_cases hE : E = remote
    · subst hE
      rw [map_assign_same, hc]
      constructor
      · rintro ⟨x, hx, hs⟩
        simp only [Option.some.injEq] at hx
        subst hx
        exact ⟨c, rfl, by rw [← hst]; exact hs⟩
      · rintro ⟨x, hx, hs⟩
        simp only [Option.some.injEq] at hx
        subst hx
        exact ⟨c1, rfl, by rw [hst]; exact hs⟩
    · rw [map_assign_other _ _ _ _ hE]
  rw [href, hcon]
  exact hinv E

theorem assign_never_connecting (m : sockaddr_in → Option cxn_handler) (remote : sockaddr_in)
    (c1 : cxn_handler) (hm : ∀ E c, m E = some c → c.state_ ≠ State.CONNECTING)
    (hc1 : c1.state_ ≠ State.CONNECTING) :
    ∀ E c, map_assign m remote c1 E = some c → c.state_ ≠ State.CONNECTING := by
  intro E c hc
  by_cases hE : E = remote
  · subst hE
    rw [map_assign_same] at hc
    simp only [Option.some.injEq] at hc
    subst hc
    exact hc1
  · rw [map_assign_other _ _ _ _ hE] at hc
    exact hm E c hc

theorem step_keeps_consistent (G : globals) (ev : registry_event)
    (hinv : registry_consistent G)
    (hnc : ∀ E c, G.g_cxns E = some c → c.state_ ≠ State.CONNECTING)
    (hag : event_agrees G ev) :
    ∃ G1, G.step ev = some G1 ∧ registry_consistent G1
      ∧ ∀ E c, G1.g_cxns E = some c → c.state_ ≠ State.CONNECTING := by
  cases ev with
  | inventory hid remote local_ now r =>
    obtain ⟨hh, hc⟩ := hag
    have hown : handle_owns G hid remote := by
      refine ⟨fun h hm => ?_, fun hid2 h2 hm hr => ?_⟩
      · rw [hh] at hm
        exact absurd hm (by simp)
      · obtain ⟨c, hcc, _⟩ := (hinv remote).mpr ⟨hid2, h2, hm, hr⟩
        rw [hc] at hcc
        exact absurd hcc (by simp)
    have hstep := congrArg (Option.map Prod.fst) (inventory_cb_eq G hid remote local_ now r hh hc)
    refine ⟨_, hstep, ?_, ?_⟩
    · exact consistent_after_connect G _ hid remote _ (hid_handler.ctor hid remote local_)
        hinv hown rfl rfl rfl rfl
    · exact assign_never_connecting _ _ _ hnc (by simp)
  | connect hid remote local_ now r =>
    cases hc : G.g_cxns remote with
    | none =>
      have hstep := congrArg (Option.map Prod.fst) (connect_cb_new G hid remote local_ now r hc)
      refine ⟨_, hstep, ?_, ?_⟩
      · refine consistent_after_connect G _ hid remote
          { state_ := State.CONNECTED, pending_time := 0, consecutive_fails := 0,
            sers := remote, timer := none }
          (hid_handler.ctor hid remote local_) hinv hag ?_ rfl ?_ rfl
        · exact map_insert_of_none _ _ _ hc
        · exact map_fresh_entry _ _ _
      · show ∀ E c, map_insert G.g_cxns remote _ E = some c → _
        rw [map_insert_of_none _ _ _ hc]
        exact assign_never_connecting _ _ _ hnc (by simp)
    | some c0 =>
      have hstep := congrArg (Option.map Prod.fst) (connect_cb_known G hid remote local_ now r c0 hc)
      refine ⟨_, hstep, ?_, ?_⟩
      · refine consistent_after_connect G _ hid remote _ (hid_handler.ctor hid remote local_)
          hinv hag rfl (state_sets_state c0 State.CONNECTED now r) ?_ rfl
        exact map_fresh_entry _ _ _
      · exact assign_never_connecting _ _ _ hnc
          (by rw [state_sets_state]; simp)
  | disconnect hid remote now r =>
    cases hc : G.g_cxns remote with
    | none =>
      have hstep := congrArg (Option.map Prod.fst) (disconnect_cb_new G hid remote now r hc)
      refine ⟨_, hstep, ?_, ?_⟩
      · refine consistent_after_disconnect G _ hid remote
          { state_ := State.DISCONNECTED, pending_time := now, consecutive_fails := 1,
            sers := remote, timer := some (now + reconnect_delay (uid r 1)) }
          hinv hag ?_ rfl rfl
        exact map_insert_of_none _ _ _ hc
      · show ∀ E c, map_insert G.g_cxns remote _ E = some c → _
        rw [map_insert_of_none _ _ _ hc]
        exact assign_never_connecting _ _ _ hnc (by simp)
    | some c0 =>
      have hstep := congrArg (Option.map Prod.fst) (disconnect_cb_known G hid remote now r c0 hc)
      refine ⟨_, hstep, ?_, ?_⟩
      · exact consistent_after_disconnect G _ hid remote _ hinv hag rfl
          (state_sets_state c0 State.DISCONNECTED now r) rfl
      · exact assign_never_connecting _ _ _ hnc
          (by rw [state_sets_state]; simp)
  | cxn_timer remote now r =>
    cases hc : G.g_cxns remote with
    | none =>
      refine ⟨G, ?_, hinv, hnc⟩
      simp only [globals.step, hc]
    | some c =>
      have hcs : c.state_ ≠ State.CONNECTING := hnc remote c hc
      obtain ⟨c1, w, hcb, hs1⟩ := timer_cb_keeps_state { c with timer := none } now r hcs
      refine ⟨{ G with g_cxns := map_assign G.g_cxns remote c1 }, ?_, ?_, ?_⟩
      · simp only [globals.step, hc, cxn_handler.on_timer, hcb, Option.map_some']
      · exact consistent_after_timer G _ remote c c1 hinv hc hs1 rfl rfl
      · exact assign_never_connecting _ _ _ hnc (by rw [hs1]; exact hcs)

theorem run_keeps_consistent (evs : List registry_event) (G : globals)
    (hinv : registry_consistent G)
    (hnc : ∀ E c, G.g_cxns E = some c → c.state_ ≠ State.CONNECTING)
    (hag : events_agree G evs) :
    ∃ G1, G.run evs = some G1 ∧ registry_consistent G1 := by
  induction evs generalizing G with
  | nil => exact ⟨G, rfl, hinv⟩
  | cons ev evs ih =>
    obtain ⟨hev, hrest⟩ := hag
    obtain ⟨G1, hstep, hinv1, hnc1⟩ := step_keeps_consistent G ev hinv hnc hev
    obtain ⟨G2, hrun, hinv2⟩ := ih G1 hinv1 hnc1 (hrest G1 hstep)
    refine ⟨G2, ?_, hinv2⟩
    simp only [globals.run, hstep, Option.some_bind]
    exact hrun

theorem empty_consistent : registry_consistent globals.empty := by
  intro E
  constructor
  · rintro ⟨c, hc, _⟩
    exact absurd hc (by simp [globals.empty])
  · rintro ⟨hid, h, hm, _⟩
    exact absurd hm (by simp [globals.empty])

/-- C17 as stated fails. The inventory reports HandleId 1 for an endpoint, a connect
notification then reports HandleId 2 for the same endpoint, and a disconnect notification
reports that HandleId 1 is gone: the endpoint is now in state DISCONNECTED although the
schedule of HandleId 2 still has it as its remote endpoint. -/
theorem C17_not_always_consistent :
    ¬ (∀ (evs : List registry_event) (G : globals),
        globals.empty.run evs = some G → registry_consistent G) := by
  intro hall
  have hsome : (globals.empty.run
      [registry_event.inventory 1 ⟨1, 8333⟩ ⟨2, 9000⟩ 100 0,
       registry_event.connect 2 ⟨1, 8333⟩ ⟨2, 9001⟩ 110 0,
       registry_event.disconnect 1 ⟨1, 8333⟩ 120 0]).isSome = true := by decide
  have href : ((globals.empty.run
      [registry_event.inventory 1 ⟨1, 8333⟩ ⟨2, 9000⟩ 100 0,
       registry_event.connect 2 ⟨1, 8333⟩ ⟨2, 9001⟩ 110 0,
       registry_event.disconnect 1 ⟨1, 8333⟩ 120 0]).bind
        (fun G => G.g_known_hids 2)).map (fun h => h.remote) = some ⟨1, 8333⟩ := by decide
  have hst : ((globals.empty.run
      [registry_event.inventory 1 ⟨1, 8333⟩ ⟨2, 9000⟩ 100 0,
       registry_event.connect 2 ⟨1, 8333⟩ ⟨2, 9001⟩ 110 0,
       registry_event.disconnect 1 ⟨1, 8333⟩ 120 0]).bind
        (fun G => G.g_cxns ⟨1, 8333⟩)).map (fun c => c.state_)
      = some State.DISCONNECTED := by decide
  cases hrun : globals.empty.run
      [registry_event.inventory 1 ⟨1, 8333⟩ ⟨2, 9000⟩ 100 0,
       registry_event.connect 2 ⟨1, 8333⟩ ⟨2, 9001⟩ 110 0,
       registry_event.disconnect 1 ⟨1, 8333⟩ 120 0] with
  | none =>
    rw [hrun] at hsome
    exact absurd hsome (by simp)
  | some G =>
    rw [hrun] at href hst
    simp only [Option.some_bind] at href hst
    have hcons := hall _ G hrun ⟨1, 8333⟩
    cases hh : G.g_known_hids 2 with
    | none =>
      rw [hh] at href
      exact absurd href (by simp)
    | some h =>
      rw [hh] at href
      simp only [Option.map_some', Option.some.injEq] at href
      obtain ⟨c, hc, hcs⟩ := hcons.mpr ⟨2, h, hh, href⟩
      rw [hc] at hst
      simp only [Option.map_some', Option.some.injEq] at hst
      rw [hcs] at hst
      exact absurd hst (by simp)

/-- C17, amended. Start from the empty registry and let any finite sequence of events
arrive in which every event agrees with the registry it arrives at: an inventory entry
names a HandleId and an endpoint not seen before; a connect or disconnect notification
for HandleId `H` and endpoint `E` finds no schedule of another HandleId with remote `E`,
and no schedule of `H` with another remote; timers of connection state machines may run
at any time. Then every event completes, and in the registry reached an endpoint is in
state CONNECTED exactly when some HandleId of the map of schedules has it as its remote
endpoint. -/
theorem C17_consistent_when_events_agree (evs : List registry_event)
    (hag : events_agree globals.empty evs) :
    ∃ G, globals.empty.run evs = some G ∧ registry_consistent G :=
  run_keeps_consistent evs globals.empty empty_consistent
    (fun E c hc => absurd hc (by simp [globals.empty])) hag

/-- C17 amended, on an inventory entry for HandleId 1 followed by the matching disconnect
notification. -/
theorem C17_consistent_when_events_agree_witness :
    ∃ G, globals.empty.run
        [registry_event.inventory 1 ⟨1, 8333⟩ ⟨2, 9000⟩ 100 0,
         registry_event.disconnect 1 ⟨1, 8333⟩ 120 0] = some G
      ∧ registry_consistent G :=
  C17_consistent_when_events_agree
    [registry_event.inventory 1 ⟨1, 8333⟩ ⟨2, 9000⟩ 100 0,
     registry_event.disconnect 1 ⟨1, 8333⟩ 120 0]
    ⟨⟨rfl, rfl⟩, fun G1 h1 => by
      have e := Option.some.inj h1
      subst e
      refine ⟨⟨?_, ?_⟩, fun _ _ => trivial⟩
      · intro h hm
        have e2 := Option.some.inj hm
        subst e2
        rfl
      · intro hid2 h2 hm _
        by_contra hne
        have hm2 : map_insert globals.empty.g_known_hids 1
            (hid_handler.ctor 1 ⟨1, 8333⟩ ⟨2, 9000⟩) hid2 = some h2 := hm
        unfold map_insert at hm2
        rw [if_neg hne] at hm2
        exact absurd hm2 (by simp [globals.empty])⟩

/-! ## Message stream parser: a complete record -/

theorem on_full_record (layout : List Nat → bitcoin_msg_log_format) (now : Int)
    (st : io_state) (hfull : st.handler.read_queue.to_read_ = 0)
    (hbody : st.handler.reading_len = false) :
    st.on_full layout now =
      { handler := bc_msg_handler.ctor, fd := st.fd,
        G := handle_record layout now st.handler.read_queue.buffer_ st.G,
        bodies := st.bodies ++ [st.handler.read_queue.buffer_] } := by
  unfold io_state.on_full
  rw [if_pos hfull, if_neg (by rw [hbody]; simp)]
  rfl

/-- C14. A complete record lies in the buffer (the parser is in the body phase and expects
no more bytes). Handling it puts the parser back into the length phase, expecting 4
bytes, and leaves the descriptor as it is. If the flag `is_sender` of the record is 0,
its command is "addr" and the map of schedules has a schedule under the HandleId of
the record (its `id` read from network byte order), then that schedule is replaced by
the result of its `enqueue` and nothing else changes. In every other case, an "addr"
record with an unknown HandleId included, the globals are unchanged. In all cases the
entries of the other HandleIds, the map of handles, the map of connection state
machines and the pending queue are unchanged. -/
theorem C14_record_dispatch (layout : List Nat → bitcoin_msg_log_format) (now : Int)
    (st : io_state) (hfull : st.handler.read_queue.to_read_ = 0)
    (hbody : st.handler.reading_len = false) :
    (st.on_full layout now).handler
        = { read_queue := { buffer_ := [], to_read_ := 4 }, reading_len := true }
    ∧ (st.on_full layout now).fd = st.fd
    ∧ (∀ it, (layout st.handler.read_queue.buffer_).is_sender = 0 →
        is_addr_command (layout st.handler.read_queue.buffer_).command = true →
        st.G.g_known_hids (be_decode (layout st.handler.read_queue.buffer_).id) = some it →
        (st.on_full layout now).G =
          { st.G with
            g_known_hids := map_assign st.G.g_known_hids
              (be_decode (layout st.handler.read_queue.buffer_).id) (it.enqueue now) })
    ∧ (¬ ((layout st.handler.read_queue.buffer_).is_sender = 0
          ∧ is_addr_command (layout st.handler.read_queue.buffer_).command = true
          ∧ (st.G.g_known_hids
              (be_decode (layout st.handler.read_queue.buffer_).id)).isSome = true) →
        (st.on_full layout now).G = st.G)
    ∧ (∀ hid2, hid2 ≠ be_decode (layout st.handler.read_queue.buffer_).id →
        (st.on_full layout now).G.g_known_hids hid2 = st.G.g_known_hids hid2)
    ∧ (st.on_full layout now).G.g_known_addrs = st.G.g_known_addrs
    ∧ (st.on_full layout now).G.g_cxns = st.G.g_cxns
    ∧ (st.on_full layout now).G.g_pending_getaddrs = st.G.g_pending_getaddrs := by
  rw [on_full_record layout now st hfull hbody]
  dsimp only
  unfold handle_record
  dsimp only
  by_cases hcond : (layout st.handler.read_queue.buffer_).is_sender = 0
      ∧ is_addr_command (layout st.handler.read_queue.buffer_).command = true
  · rw [if_pos hcond]
    cases hfind : st.G.g_known_hids (be_decode (layout st.handler.read_queue.buffer_).id) with
    | none =>
      refine ⟨rfl, rfl, ?_, fun _ => rfl, fun _ _ => rfl, rfl, rfl, rfl⟩
      intro it _ _ hit
      exact absurd hit (by simp)
    | some it0 =>
      refine ⟨rfl, rfl, ?_, ?_, ?_, rfl, rfl, rfl⟩
      · intro it _ _ hit
        simp only [Option.some.injEq] at hit
        rw [hit]
      · intro hn
        exact absurd ⟨hcond.1, hcond.2, rfl⟩ hn
      · intro hid2 hne
        exact map_assign_other _ _ _ _ hne
  · rw [if_neg hcond]
    refine ⟨rfl, rfl, ?_, fun _ => rfl, fun _ _ => rfl, rfl, rfl, rfl⟩
    intro it h1 h2 _
    exact absurd ⟨h1, h2⟩ hcond

/-- C14 on an inbound "addr" record of HandleId 7 (layout of the description of the log
feed), with a schedule for HandleId 7 in the registry: that schedule is enqueued and the
parser is back in the length phase. -/
theorem C14_record_dispatch_witness :
    (io_state.on_full spec_layout 50
        { handler :=
            { read_queue :=
                { buffer_ := [0, 97, 100, 100, 114, 0, 0, 0, 0, 0, 0, 0, 0, 0, 0, 0, 7, 1],
                  to_read_ := 0 },
              reading_len := false },
          fd := [],
          G := { globals.empty with
                 g_known_hids := map_assign globals.empty.g_known_hids 7
                   (hid_handler.ctor 7 ⟨1, 8333⟩ ⟨2, 9000⟩) },
          bodies := [] }).handler
      = { read_queue := { buffer_ := [], to_read_ := 4 }, reading_len := true }
    ∧ (io_state.on_full spec_layout 50
        { handler :=
            { read_queue :=
                { buffer_ := [0, 97, 100, 100, 114, 0, 0, 0, 0, 0, 0, 0, 0, 0, 0, 0, 7, 1],
                  to_read_ := 0 },
              reading_len := false },
          fd := [],
          G := { globals.empty with
                 g_known_hids := map_assign globals.empty.g_known_hids 7
                   (hid_handler.ctor 7 ⟨1, 8333⟩ ⟨2, 9000⟩) },
          bodies := [] }).G.g_known_hids 7
      = some { hid := 7, remote := ⟨1, 8333⟩, local_ := ⟨2, 9000⟩, timer := some 60,
               last_enqueue := 50, getaddr_seq := 0, getaddr_cnt := 0 } :=
  ⟨(C14_record_dispatch spec_layout 50 _ rfl rfl).1,
   congrFun (congrArg globals.g_known_hids
     ((C14_record_dispatch spec_layout 50 _ rfl rfl).2.2.1
        (hid_handler.ctor 7 ⟨1, 8333⟩ ⟨2, 9000⟩) (by decide) (by decide) (by decide))) 7⟩

/-! ## Message stream parser: results of read -/

theorem io_cb_loop_not_hungry (layout : List Nat → bitcoin_msg_log_format) (now : Int)
    (fuel : Nat) (r : Int) (st : io_state) (hh : st.handler.read_queue.hungry = false) :
    io_cb_loop layout now fuel r st = io_result.done st := by
  cases fuel with
  | zero =>
    unfold io_cb_loop
    rw [if_neg (by rw [hh]; simp)]
  | succ n =>
    unfold io_cb_loop
    rw [if_neg (by rw [hh]; simp)]

theorem io_cb_loop_stopped (layout : List Nat → bitcoin_msg_log_format) (now : Int)
    (fuel : Nat) (r : Int) (st : io_state) (hr : ¬ r > 0) :
    io_cb_loop layout now fuel r st = io_result.done st := by
  cases fuel with
  | zero =>
    unfold io_cb_loop
    rw [if_neg (fun h => hr h.1)]
  | succ n =>
    unfold io_cb_loop
    rw [if_neg (fun h => hr h.1)]

theorem io_cb_loop_body (layout : List Nat → bitcoin_msg_log_format) (now : Int)
    (fuel : Nat) (r : Int) (st : io_state) (hr : r > 0)
    (hh : st.handler.read_queue.hungry = true) :
    io_cb_loop layout now (fuel + 1) r st =
      match st.read_step layout now with
      | Except.error st1 => io_result.fatal st1
      | Except.ok (r1, st1) => io_cb_loop layout now fuel r1 st1 := by
  conv_lhs => unfold io_cb_loop
  rw [if_pos ⟨hr, hh⟩]

/-- C15. The parser expects bytes and runs the body of its loop once; `res` is what `read`
returns for the bytes expected. The body throws exactly when `read` returned 0, or a
negative value with an `errno` other than `EWOULDBLOCK` and `EAGAIN`. When `read`
returned a negative value with one of these two, nothing is thrown, the loop ends, and
the parser phase, the buffered bytes, the number of bytes expected, the globals and the
completed bodies are what they were. -/
theorem C15_read_errors (layout : List Nat → bitcoin_msg_log_format) (now : Int)
    (st : io_state) (hh : st.handler.read_queue.hungry = true) :
    ((∃ st1, st.read_step layout now = Except.error st1) ↔
        ((sys_read st.fd st.handler.read_queue.to_read_).1.r = 0
          ∨ ((sys_read st.fd st.handler.read_queue.to_read_).1.r < 0
              ∧ (sys_read st.fd st.handler.read_queue.to_read_).1.errno ≠ EWOULDBLOCK
              ∧ (sys_read st.fd st.handler.read_queue.to_read_).1.errno ≠ EAGAIN)))
    ∧ ((sys_read st.fd st.handler.read_queue.to_read_).1.r < 0 →
        ((sys_read st.fd st.handler.read_queue.to_read_).1.errno = EWOULDBLOCK
          ∨ (sys_read st.fd st.handler.read_queue.to_read_).1.errno = EAGAIN) →
        ∀ fuel r0, r0 > 0 →
          io_cb_loop layout now (fuel + 1) r0 st
            = io_result.done
                { st with fd := (sys_read st.fd st.handler.read_queue.to_read_).2 })
    ∧ (∀ rest, st.fd = fd_item.closed :: rest →
        ∃ st1, st.read_step layout now = Except.error st1)
    ∧ (∀ e rest, st.fd = fd_item.error e :: rest →
        ((∃ st1, st.read_step layout now = Except.error st1) ↔ (e ≠ EWOULDBLOCK ∧ e ≠ EAGAIN)))
    ∧ (st.fd = [] → ∀ fuel r0, r0 > 0 →
        io_cb_loop layout now (fuel + 1) r0 st = io_result.done st) := by
  have hpos : st.handler.read_queue.to_read_ ≠ 0 := by
    unfold read_buffer.hungry at hh
    simp only [gt_iff_lt, decide_eq_true_eq] at hh
    omega
  have hiff : (∃ st1, st.read_step layout now = Except.error st1) ↔
        ((sys_read st.fd st.handler.read_queue.to_read_).1.r = 0
          ∨ ((sys_read st.fd st.handler.read_queue.to_read_).1.r < 0
              ∧ (sys_read st.fd st.handler.read_queue.to_read_).1.errno ≠ EWOULDBLOCK
              ∧ (sys_read st.fd st.handler.read_queue.to_read_).1.errno ≠ EAGAIN)) := by
    have hr : (st.handler.read_queue.do_read st.fd).1
        = (sys_read st.fd st.handler.read_queue.to_read_).1 := by
      unfold read_buffer.do_read
      dsimp only
      split_ifs <;> rfl
    unfold io_state.read_step
    dsimp only
    rw [hr]
    by_cases h1 : (sys_read st.fd st.handler.read_queue.to_read_).1.r < 0
        ∧ (sys_read st.fd st.handler.read_queue.to_read_).1.errno ≠ EWOULDBLOCK
        ∧ (sys_read st.fd st.handler.read_queue.to_read_).1.errno ≠ EAGAIN
    · rw [if_pos h1]
      exact ⟨fun _ => Or.inr h1, fun _ => ⟨_, rfl⟩⟩
    · rw [if_neg h1]
      by_cases h2 : (sys_read st.fd st.handler.read_queue.to_read_).1.r = 0
      · rw [if_pos h2]
        exact ⟨fun _ => Or.inl h2, fun _ => ⟨_, rfl⟩⟩
      · rw [if_neg h2]
        constructor
        · rintro ⟨st1, he⟩
          exact absurd he (by simp)
        · rintro (h3 | h3)
          · exact absurd h3 h2
          · exact absurd h3 h1
  have hblock : (sys_read st.fd st.handler.read_queue.to_read_).1.r < 0 →
        ((sys_read st.fd st.handler.read_queue.to_read_).1.errno = EWOULDBLOCK
          ∨ (sys_read st.fd st.handler.read_queue.to_read_).1.errno = EAGAIN) →
        ∀ fuel r0, r0 > 0 →
          io_cb_loop layout now (fuel + 1) r0 st
            = io_result.done
                { st with fd := (sys_read st.fd st.handler.read_queue.to_read_).2 } := by
    intro hneg herr fuel r0 hr0
    have hstep : st.read_step layout now
        = Except.ok ((sys_read st.fd st.handler.read_queue.to_read_).1.r,
            { st with fd := (sys_read st.fd st.handler.read_queue.to_read_).2 }) := by
      have hdr : st.handler.read_queue.do_read st.fd
          = ((sys_read st.fd st.handler.read_queue.to_read_).1, st.handler.read_queue,
             (sys_read st.fd st.handler.read_queue.to_read_).2) := by
        unfold read_buffer.do_read
        dsimp only
        rw [if_neg (by omega)]
      unfold io_state.read_step
      dsimp only
      rw [hdr]
      dsimp only
      rw [if_neg (by
        intro h3
        rcases herr with h4 | h4
        · exact h3.2.1 h4
        · exact h3.2.2 h4), if_neg (by omega)]
      unfold io_state.on_full
      dsimp only
      rw [if_neg hpos]
    rw [io_cb_loop_body layout now fuel r0 st hr0 hh, hstep]
    exact io_cb_loop_stopped layout now fuel _ _ (by omega)
  refine ⟨hiff, hblock, ?_, ?_, ?_⟩
  · intro rest hfd
    rw [hiff, hfd]
    exact Or.inl rfl
  · intro e rest hfd
    rw [hiff, hfd]
    constructor
    · rintro (h0 | h1)
      · exact absurd h0 (by simp [sys_read])
      · exact ⟨h1.2.1, h1.2.2⟩
    · intro h1
      exact Or.inr ⟨by simp [sys_read], h1.1, h1.2⟩
  · intro hfd fuel r0 hr0
    have h1 := hblock (by rw [hfd]; simp [sys_read]) (by rw [hfd]; exact Or.inr rfl)
      fuel r0 hr0
    rw [h1]
    congr 1
    obtain ⟨hd, fd, G, bodies⟩ := st
    simp only at hfd
    subst hfd
    rfl

/-- C15 on a parser in the length phase with one byte buffered, when `read` fails with
`EAGAIN` before the next bytes arrive: the call returns and the parser is as before. -/
theorem C15_read_errors_witness :
    io_cb_loop spec_layout 0 (3 + 1) 1
        { handler := { read_queue := { buffer_ := [0], to_read_ := 3 }, reading_len := true },
          fd := [fd_item.error 11, fd_item.chunk [0, 0, 1, 9]],
          G := globals.empty, bodies := [] }
      = io_result.done
        { handler := { read_queue := { buffer_ := [0], to_read_ := 3 }, reading_len := true },
          fd := [fd_item.chunk [0, 0, 1, 9]],
          G := globals.empty, bodies := [] } :=
  (C15_read_errors spec_layout 0
      { handler := { read_queue := { buffer_ := [0], to_read_ := 3 }, reading_len := true },
        fd := [fd_item.error 11, fd_item.chunk [0, 0, 1, 9]],
        G := globals.empty, bodies := [] } rfl).2.1
    (by decide) (Or.inr rfl) 3 1 (by decide)

/-! ## Message stream parser: reading a frame over partial reads -/

theorem be_decode_encode (n : Nat) (hn : n < 4294967296) : be_decode (be32_encode n) = n := by
  unfold be_decode be32_encode
  simp only [List.foldl_cons, List.foldl_nil]
  omega

theorem read_step_chunk (layout : List Nat → bitcoin_msg_log_format) (now : Int)
    (buf : List Nat) (t : Nat) (rl : Bool) (c : List Nat) (rest : List fd_item)
    (G : globals) (bodies : List (List Nat)) (ht : 0 < t) (hc : c ≠ []) :
    io_state.read_step layout now
        { handler := { read_queue := { buffer_ := buf, to_read_ := t }, reading_len := rl },
          fd := fd_item.chunk c :: rest, G := G, bodies := bodies }
      = Except.ok (((c.take t).length : Int),
          io_state.on_full layout now
            { handler :=
                { read_queue := { buffer_ := buf ++ c.take t,
                                  to_read_ := t - (c.take t).length },
                  reading_len := rl },
              fd := if c.drop t = [] then rest else fd_item.chunk (c.drop t) :: rest,
              G := G, bodies := bodies }) := by
  have hlen : 0 < (c.take t).length := by
    rw [List.length_take]
    have : 0 < c.length := List.length_pos.mpr hc
    omega
  have hpos : ((c.take t).length : Int) > 0 := by exact_mod_cast hlen
  have hdr : read_buffer.do_read { buffer_ := buf, to_read_ := t } (fd_item.chunk c :: rest)
      = ({ r := (c.take t).length, errno := 0, bytes := c.take t },
         { buffer_ := buf ++ c.take t, to_read_ := t - (c.take t).length },
         if c.drop t = [] then rest else fd_item.chunk (c.drop t) :: rest) := by
    unfold read_buffer.do_read sys_read
    dsimp only
    rw [if_pos hpos]
  unfold io_state.read_step
  dsimp only
  rw [hdr]
  dsimp only
  rw [if_neg (by omega), if_neg (by omega)]

theorem on_full_expecting (layout : List Nat → bitcoin_msg_log_format) (now : Int)
    (st : io_state) (ht : st.handler.read_queue.to_read_ ≠ 0) : st.on_full layout now = st := by
  unfold io_state.on_full
  rw [if_neg ht]

/-- Reading the bytes of one phase: whatever the split of the stream into chunks, the reads
of the loop gather exactly the `t` bytes expected and then run the completion code. -/
theorem read_phase (layout : List Nat → bitcoin_msg_log_format) (now : Int) (rl : Bool)
    (G : globals) (bodies : List (List Nat)) :
    ∀ (t : Nat) (buf : List Nat) (chunks : List (List Nat)) (xs rest : List Nat),
      0 < t → xs.length = t → (∀ c ∈ chunks, c ≠ []) → chunks.flatten = xs ++ rest →
      ∃ (chunks1 : List (List Nat)) (k : Nat) (r1 : Int),
        1 ≤ k ∧ k ≤ t ∧ r1 > 0 ∧ (∀ c ∈ chunks1, c ≠ []) ∧ chunks1.flatten = rest
        ∧ ∀ fuel r0, r0 > 0 →
          io_cb_loop layout now (fuel + k) r0
              { handler := { read_queue := { buffer_ := buf, to_read_ := t },
                             reading_len := rl },
                fd := chunks.map fd_item.chunk, G := G, bodies := bodies }
            = io_cb_loop layout now fuel r1
                (io_state.on_full layout now
                  { handler := { read_queue := { buffer_ := buf ++ xs, to_read_ := 0 },
                                 reading_len := rl },
                    fd := chunks1.map fd_item.chunk, G := G, bodies := bodies }) := by
  intro t
  induction t using Nat.strong_induction_on with
  | _ t ih =>
    intro buf chunks xs rest ht hlen hne hfl
    cases chunks with
    | nil =>
      simp only [List.flatten_nil] at hfl
      have hx : xs = [] := (List.append_eq_nil.mp hfl.symm).1
      rw [hx] at hlen
      simp only [List.length_nil] at hlen
      omega
    | cons c cs =>
      have hc : c ≠ [] := hne c (List.mem_cons_self c cs)
      have hcs : ∀ c2 ∈ cs, c2 ≠ [] := fun c2 h2 => hne c2 (List.mem_cons_of_mem c h2)
      have hclen : 0 < c.length := List.length_pos.mpr hc
      rw [List.flatten_cons] at hfl
      have hstep := read_step_chunk layout now buf t rl c (cs.map fd_item.chunk) G bodies ht hc
      have hhungry : read_buffer.hungry { buffer_ := buf, to_read_ := t } = true := by
        unfold read_buffer.hungry
        simp only [gt_iff_lt, decide_eq_true_eq]
        exact ht
      by_cases hle : t ≤ c.length
      · have htake : c.take t = xs := by
          have h1 : (c ++ cs.flatten).take t = (xs ++ rest).take t := by rw [hfl]
          rw [List.take_append_of_le_length hle,
            List.take_append_of_le_length (le_of_eq hlen.symm),
            List.take_of_length_le (le_of_eq hlen)] at h1
          exact h1
        have hdrop : c.drop t ++ cs.flatten = rest := by
          have h1 : (c ++ cs.flatten).drop t = (xs ++ rest).drop t := by rw [hfl]
          rw [List.drop_append_of_le_length hle,
            List.drop_append_of_le_length (le_of_eq hlen.symm),
            List.drop_eq_nil_of_le (le_of_eq hlen), List.nil_append] at h1
          exact h1
        have hzero : t - (c.take t).length = 0 := by
          rw [htake, hlen]
          exact Nat.sub_self t
        rw [htake, hlen, Nat.sub_self] at hstep
        refine ⟨if c.drop t = [] then cs else c.drop t :: cs, 1, (t : Int), le_refl 1, ht,
          by exact_mod_cast ht, ?_, ?_, ?_⟩
        · intro c2 h2
          by_cases hd : c.drop t = []
          · rw [if_pos hd] at h2
            exact hcs c2 h2
          · rw [if_neg hd] at h2
            rcases List.mem_cons.mp h2 with h3 | h3
            · rw [h3]; exact hd
            · exact hcs c2 h3
        · by_cases hd : c.drop t = []
          · rw [if_pos hd]
            rw [hd, List.nil_append] at hdrop
            exact hdrop
          · rw [if_neg hd, List.flatten_cons]
            exact hdrop
        · intro fuel r0 hr0
          rw [io_cb_loop_body layout now fuel r0 _ hr0 hhungry]
          simp only [List.map_cons] at hstep ⊢
          rw [hstep]
          dsimp only
          congr 2
          by_cases hd : c.drop t = []
          · rw [if_pos hd, if_pos hd]
          · rw [if_neg hd, if_neg hd, List.map_cons]
      · have hlt : c.length < t := Nat.lt_of_not_le hle
        have htk : c.take t = c := List.take_of_length_le (le_of_lt hlt)
        have hdr : c.drop t = [] := List.drop_eq_nil_of_le (le_of_lt hlt)
        have hcx : c.length ≤ xs.length := by rw [hlen]; exact le_of_lt hlt
        have hpre : c = xs.take c.length := by
          have h1 : (c ++ cs.flatten).take c.length = (xs ++ rest).take c.length := by rw [hfl]
          rw [List.take_append_of_le_length (le_refl _), List.take_of_length_le (le_refl _),
            List.take_append_of_le_length hcx] at h1
          exact h1
        have hsuf : cs.flatten = xs.drop c.length ++ rest := by
          have h1 : (c ++ cs.flatten).drop c.length = (xs ++ rest).drop c.length := by
            rw [hfl]
          rw [List.drop_append_of_le_length (le_refl _),
            List.drop_eq_nil_of_le (le_refl _), List.nil_append,
            List.drop_append_of_le_length hcx] at h1
          exact h1
        have hxs : c ++ xs.drop c.length = xs := by
          conv_lhs => rw [hpre]
          rw [List.length_take, Nat.min_eq_left hcx]
          exact List.take_append_drop c.length xs
        rw [htk, hdr, if_pos rfl] at hstep
        rw [on_full_expecting layout now _ (by
          show t - c.length ≠ 0
          omega)] at hstep
        obtain ⟨chunks1, k, r1, hk1, hkt, hr1, hne1, hfl1, hloop⟩ :=
          ih (t - c.length) (by omega) (buf ++ c) cs (xs.drop c.length) rest (by omega)
            (by rw [List.length_drop, hlen]) hcs hsuf
        refine ⟨chunks1, k + 1, r1, by omega, by omega, hr1, hne1, hfl1, ?_⟩
        intro fuel r0 hr0
        have hfuel : fuel + (k + 1) = (fuel + k) + 1 := by omega
        rw [hfuel, io_cb_loop_body layout now (fuel + k) r0 _ hr0 hhungry]
        simp only [List.map_cons] at hstep ⊢
        rw [hstep]
        dsimp only
        rw [hloop fuel _ (by exact_mod_cast hclen), List.append_assoc, hxs]

theorem on_full_length (layout : List Nat → bitcoin_msg_log_format) (now : Int)
    (n : Nat) (hn : n < 4294967296) (fd : List fd_item) (G : globals)
    (bodies : List (List Nat)) :
    io_state.on_full layout now
        { handler := { read_queue := { buffer_ := [] ++ be32_encode n, to_read_ := 0 },
                       reading_len := true },
          fd := fd, G := G, bodies := bodies }
      = { handler := { read_queue := { buffer_ := [], to_read_ := n }, reading_len := false },
          fd := fd, G := G, bodies := bodies } := by
  have hd : be_decode (List.take 4 ([] ++ be32_encode n)) = n := by
    rw [List.nil_append]
    have h4 : List.take 4 (be32_encode n) = be32_encode n := rfl
    rw [h4]
    exact be_decode_encode n hn
  unfold io_state.on_full
  dsimp only
  rw [if_pos rfl, if_pos rfl]
  unfold read_buffer.set_to_read read_buffer.cursor0
  dsimp only
  rw [hd]

/-- Reading one frame: from the length phase, a stream that starts with the frame of a
non-empty payload `p` brings the parser back to the length phase with `p` handled and
recorded, whatever the split into chunks. -/
theorem read_frame (layout : List Nat → bitcoin_msg_log_format) (now : Int)
    (p rest : List Nat) (chunks : List (List Nat)) (G : globals) (bodies : List (List Nat))
    (hp : p ≠ []) (hlen : p.length < 4294967296) (hne : ∀ c ∈ chunks, c ≠ [])
    (hfl : chunks.flatten = frame p ++ rest) :
    ∃ (chunks1 : List (List Nat)) (k : Nat) (r1 : Int),
      1 ≤ k ∧ k ≤ 4 + p.length ∧ r1 > 0 ∧ (∀ c ∈ chunks1, c ≠ []) ∧ chunks1.flatten = rest
      ∧ ∀ fuel r0, r0 > 0 →
        io_cb_loop layout now (fuel + k) r0
            { handler := bc_msg_handler.ctor, fd := chunks.map fd_item.chunk, G := G,
              bodies := bodies }
          = io_cb_loop layout now fuel r1
              { handler := bc_msg_handler.ctor, fd := chunks1.map fd_item.chunk,
                G := handle_record layout now p G, bodies := bodies ++ [p] } := by
  have hplen : 0 < p.length := List.length_pos.mpr hp
  have hfl1 : chunks.flatten = be32_encode p.length ++ (p ++ rest) := by
    rw [hfl, frame, List.append_assoc]
  obtain ⟨chunksA, kA, rA, hkA1, hkA4, hrA, hneA, hflA, hloopA⟩ :=
    read_phase layout now true G bodies 4 [] chunks (be32_encode p.length) (p ++ rest)
      (by norm_num) rfl hne hfl1
  obtain ⟨chunksB, kB, rB, hkB1, hkBn, hrB, hneB, hflB, hloopB⟩ :=
    read_phase layout now false G bodies p.length [] chunksA p rest hplen rfl hneA hflA
  refine ⟨chunksB, kB + kA, rB, by omega, by omega, hrB, hneB, hflB, ?_⟩
  intro fuel r0 hr0
  have hfuel : fuel + (kB + kA) = (fuel + kB) + kA := by omega
  have hA := hloopA (fuel + kB) r0 hr0
  rw [on_full_length layout now p.length hlen] at hA
  have hB := hloopB fuel rA hrA
  rw [on_full_record layout now _ rfl rfl] at hB
  rw [hfuel]
  exact hA.trans hB

theorem io_cb_loop_drained (layout : List Nat → bitcoin_msg_log_format) (now : Int)
    (fuel : Nat) (r0 : Int) (hr0 : r0 > 0) (G : globals) (bodies : List (List Nat)) :
    io_cb_loop layout now (fuel + 1) r0
        { handler := bc_msg_handler.ctor, fd := [], G := G, bodies := bodies }
      = io_result.done
          { handler := bc_msg_handler.ctor, fd := [], G := G, bodies := bodies } := by
  have hstep : io_state.read_step layout now
      { handler := bc_msg_handler.ctor, fd := [], G := G, bodies := bodies }
      = Except.ok (-1, { handler := bc_msg_handler.ctor, fd := [], G := G,
                         bodies := bodies }) := rfl
  rw [io_cb_loop_body layout now fuel r0
    { handler := bc_msg_handler.ctor, fd := [], G := G, bodies := bodies } hr0 rfl, hstep]
  exact io_cb_loop_stopped layout now fuel _ _ (by decide)

theorem flatten_nonempty_nil (chunks : List (List Nat)) (hne : ∀ c ∈ chunks, c ≠ [])
    (hfl : chunks.flatten = []) : chunks = [] := by
  cases chunks with
  | nil => rfl
  | cons c cs =>
    rw [List.flatten_cons] at hfl
    exact absurd (List.append_eq_nil.mp hfl).1 (hne c (List.mem_cons_self c cs))

theorem flatten_singletons (xs : List Nat) : (xs.map (fun b => [b])).flatten = xs := by
  induction xs with
  | nil => rfl
  | cons x xs ih =>
    rw [List.map_cons, List.flatten_cons, ih]
    rfl

/-- C13. Take a record payload `p` (not empty, as a record has its fixed fields; shorter
than `2 ^ 32` bytes, so that its length fits the prefix) and feed its frame, four bytes of
big-endian length and then `p`, to a parser in its initial state, split into non-empty
chunks in any way, each read returning bytes of one chunk. With more reads allowed than
the frame has bytes, `io_cb` returns with exactly one body completed, equal to `p`, the
record handled once, the stream used up and the parser in the length phase expecting 4
bytes. The result does not mention the split; in particular it is the one obtained with
one byte per read. -/
theorem C13_framing_roundtrip (layout : List Nat → bitcoin_msg_log_format) (now : Int)
    (p : List Nat) (chunks : List (List Nat)) (G : globals) (fuel : Nat)
    (hp : p ≠ []) (hlen : p.length < 2 ^ 32) (hne : ∀ c ∈ chunks, c ≠ [])
    (hfl : chunks.flatten = frame p) (hfuel : 4 + p.length < fuel) :
    io_cb layout now fuel
        { handler := bc_msg_handler.ctor, fd := chunks.map fd_item.chunk, G := G,
          bodies := [] }
      = io_result.done
          { handler := { read_queue := { buffer_ := [], to_read_ := 4 }, reading_len := true },
            fd := [], G := handle_record layout now p G, bodies := [p] }
    ∧ io_cb layout now fuel
        { handler := bc_msg_handler.ctor,
          fd := ((frame p).map (fun b => [b])).map fd_item.chunk, G := G, bodies := [] }
      = io_cb layout now fuel
        { handler := bc_msg_handler.ctor, fd := chunks.map fd_item.chunk, G := G,
          bodies := [] } := by
  have key : ∀ cs : List (List Nat), (∀ c ∈ cs, c ≠ []) → cs.flatten = frame p →
      io_cb layout now fuel
        { handler := bc_msg_handler.ctor, fd := cs.map fd_item.chunk, G := G, bodies := [] }
      = io_result.done
          { handler := { read_queue := { buffer_ := [], to_read_ := 4 }, reading_len := true },
            fd := [], G := handle_record layout now p G, bodies := [p] } := by
    intro cs hcs hcf
    obtain ⟨chunks1, k, r1, hk1, hk, hr1, hne1, hfl1, hloop⟩ :=
      read_frame layout now p [] cs G [] hp (by norm_num at hlen; exact hlen) hcs
        (by rw [hcf, List.append_nil])
    have hnil : chunks1 = [] := flatten_nonempty_nil chunks1 hne1 hfl1
    subst hnil
    obtain ⟨m, hm⟩ : ∃ m, fuel = (m + 1) + k := ⟨fuel - k - 1, by omega⟩
    unfold io_cb
    rw [hm, hloop (m + 1) 1 (by decide)]
    exact io_cb_loop_drained layout now m r1 hr1 _ _
  refine ⟨key chunks hne hfl, ?_⟩
  rw [key chunks hne hfl]
  refine key _ ?_ (flatten_singletons _)
  intro c hc
  obtain ⟨b, _, hb⟩ := List.mem_map.mp hc
  rw [← hb]
  exact List.cons_ne_nil b []

/-- C13 on the payload 1, 2, 3, whose frame arrives in chunks of two, three and two
bytes. -/
theorem C13_framing_roundtrip_witness :
    io_cb spec_layout 0 10
        { handler := bc_msg_handler.ctor,
          fd := [[0, 0], [0, 3, 1], [2, 3]].map fd_item.chunk, G := globals.empty,
          bodies := [] }
      = io_result.done
          { handler := { read_queue := { buffer_ := [], to_read_ := 4 }, reading_len := true },
            fd := [], G := handle_record spec_layout 0 [1, 2, 3] globals.empty,
            bodies := [[1, 2, 3]] } :=
  (C13_framing_roundtrip spec_layout 0 [1, 2, 3] [[0, 0], [0, 3, 1], [2, 3]] globals.empty 10
    (by decide) (by decide) (by decide) (by decide) (by decide)).1

/-! ## Message stream parser: a stream of frames -/

/-- A stream of frames of non-empty payloads: the parser completes the payloads in order,
whatever the split into chunks, and is back in the length phase. -/
theorem read_frames (layout : List Nat → bitcoin_msg_log_format) (now : Int)
    (ps : List (List Nat)) :
    ∀ (chunks : List (List Nat)) (G : globals) (bodies : List (List Nat)),
      (∀ p ∈ ps, p ≠ [] ∧ p.length < 4294967296) → (∀ c ∈ chunks, c ≠ []) →
      chunks.flatten = (ps.map frame).flatten →
      ∃ k, k ≤ (ps.map frame).flatten.length ∧ ∀ fuel r0, r0 > 0 → ∃ r1, r1 > 0 ∧
        io_cb_loop layout now (fuel + k) r0
            { handler := bc_msg_handler.ctor, fd := chunks.map fd_item.chunk, G := G,
              bodies := bodies }
          = io_cb_loop layout now fuel r1
              { handler := bc_msg_handler.ctor, fd := [],
                G := ps.foldl (fun g p => handle_record layout now p g) G,
                bodies := bodies ++ ps } := by
  induction ps with
  | nil =>
    intro chunks G bodies _ hne hfl
    have hnil : chunks = [] := flatten_nonempty_nil chunks hne hfl
    subst hnil
    refine ⟨0, Nat.zero_le _, fun fuel r0 hr0 => ⟨r0, hr0, ?_⟩⟩
    simp only [List.map_nil, List.foldl_nil, List.append_nil, Nat.add_zero]
  | cons p ps ih =>
    intro chunks G bodies hps hne hfl
    obtain ⟨hp, hplen⟩ := hps p (List.mem_cons_self p ps)
    rw [List.map_cons, List.flatten_cons] at hfl
    obtain ⟨chunks1, k1, r1, _, hk1, hr1, hne1, hfl1, hloop1⟩ :=
      read_frame layout now p _ chunks G bodies hp hplen hne hfl
    obtain ⟨k2, hk2, hloop2⟩ :=
      ih chunks1 (handle_record layout now p G) (bodies ++ [p])
        (fun q hq => hps q (List.mem_cons_of_mem p hq)) hne1 hfl1
    refine ⟨k2 + k1, ?_, ?_⟩
    · rw [List.map_cons, List.flatten_cons, List.length_append]
      have hfr : (frame p).length = 4 + p.length := by
        unfold frame be32_encode
        simp only [List.length_append, List.length_cons, List.length_nil]
      omega
    · intro fuel r0 hr0
      obtain ⟨r2, hr2, hl2⟩ := hloop2 fuel r1 hr1
      refine ⟨r2, hr2, ?_⟩
      have hfuel : fuel + (k2 + k1) = (fuel + k2) + k1 := by omega
      rw [hfuel, hloop1 (fuel + k2) r0 hr0, hl2, List.foldl_cons, List.append_assoc]
      rfl

/-- C19 as stated fails at declared length 0. The stream holds a frame of declared length
0 followed by the frame of the payload 1, 2, 3. After the four length bytes the parser
is in the body phase expecting 0 bytes; as the loop reads only while bytes are expected,
`io_cb` returns there, with no body completed and the second frame unread, and every
later call of `io_cb` returns at once in the same state. -/
theorem C19_zero_length_frame_stalls :
    (∀ fuel : Nat,
      io_cb spec_layout 0 (fuel + 1)
          { handler := bc_msg_handler.ctor,
            fd := [fd_item.chunk (frame [] ++ frame [1, 2, 3])], G := globals.empty,
            bodies := [] }
        = io_result.done
            { handler := { read_queue := { buffer_ := [], to_read_ := 0 },
                           reading_len := false },
              fd := [fd_item.chunk (frame [1, 2, 3])], G := globals.empty, bodies := [] })
    ∧ (∀ fuel : Nat,
      io_cb spec_layout 0 fuel
          { handler := { read_queue := { buffer_ := [], to_read_ := 0 },
                         reading_len := false },
            fd := [fd_item.chunk (frame [1, 2, 3])], G := globals.empty, bodies := [] }
        = io_result.done
            { handler := { read_queue := { buffer_ := [], to_read_ := 0 },
                           reading_len := false },
              fd := [fd_item.chunk (frame [1, 2, 3])], G := globals.empty,
              bodies := [] }) := by
  constructor
  · intro fuel
    have hstep : io_state.read_step spec_layout 0
        { handler := bc_msg_handler.ctor,
          fd := [fd_item.chunk (frame [] ++ frame [1, 2, 3])], G := globals.empty,
          bodies := [] }
        = Except.ok (4,
          { handler := { read_queue := { buffer_ := [], to_read_ := 0 },
                         reading_len := false },
            fd := [fd_item.chunk (frame [1, 2, 3])], G := globals.empty, bodies := [] }) := rfl
    unfold io_cb
    rw [io_cb_loop_body spec_layout 0 fuel 1
      { handler := bc_msg_handler.ctor,
        fd := [fd_item.chunk (frame [] ++ frame [1, 2, 3])], G := globals.empty,
        bodies := [] } (by decide) rfl, hstep]
    exact io_cb_loop_not_hungry spec_layout 0 fuel 4 _ rfl
  · intro fuel
    exact io_cb_loop_not_hungry spec_layout 0 fuel 1 _ rfl

/-- C19, amended. Take any stream of frames whose declared lengths are at least 1 (they
may be shorter than the fixed fields of a record, and the records may be of any kind)
and below `2 ^ 32`, split into non-empty chunks in any way. With more reads allowed than
the stream has bytes, `io_cb` reads the stream to its end, completes exactly the bodies
of the frames, in order, each handled once, and leaves the parser in the length phase
expecting 4 bytes. -/
theorem C19_frames_of_positive_length (layout : List Nat → bitcoin_msg_log_format) (now : Int)
    (ps : List (List Nat)) (chunks : List (List Nat)) (G : globals) (fuel : Nat)
    (hps : ∀ p ∈ ps, p ≠ [] ∧ p.length < 4294967296) (hne : ∀ c ∈ chunks, c ≠ [])
    (hfl : chunks.flatten = (ps.map frame).flatten)
    (hfuel : (ps.map frame).flatten.length < fuel) :
    io_cb layout now fuel
        { handler := bc_msg_handler.ctor, fd := chunks.map fd_item.chunk, G := G,
          bodies := [] }
      = io_result.done
          { handler := { read_queue := { buffer_ := [], to_read_ := 4 }, reading_len := true },
            fd := [], G := ps.foldl (fun g p => handle_record layout now p g) G,
            bodies := ps } := by
  obtain ⟨k, hk, hloop⟩ := read_frames layout now ps chunks G [] hps hne hfl
  obtain ⟨m, hm⟩ : ∃ m, fuel = (m + 1) + k := ⟨fuel - k - 1, by omega⟩
  obtain ⟨r1, hr1, hl⟩ := hloop (m + 1) 1 (by decide)
  unfold io_cb
  rw [hm, hl, List.nil_append]
  exact io_cb_loop_drained layout now m r1 hr1 _ _

/-- C19 amended, on the frames of the payloads 9 and 1, 2, 3 arriving in three chunks that
cut across the frames. -/
theorem C19_frames_of_positive_length_witness :
    io_cb spec_layout 0 20
        { handler := bc_msg_handler.ctor,
          fd := [[0, 0, 0], [1, 9, 0, 0, 0], [3, 1, 2, 3]].map fd_item.chunk,
          G := globals.empty, bodies := [] }
      = io_result.done
          { handler := { read_queue := { buffer_ := [], to_read_ := 4 }, reading_len := true },
            fd := [],
            G := [[9], [1, 2, 3]].foldl (fun g p => handle_record spec_layout 0 p g)
              globals.empty,
            bodies := [[9], [1, 2, 3]] } :=
  C19_frames_of_positive_length spec_layout 0 [[9], [1, 2, 3]]
    [[0, 0, 0], [1, 9, 0, 0, 0], [3, 1, 2, 3]] globals.empty 20
    (by decide) (by decide) (by decide) (by decide)

end Getaddr
